import Mathlib

/-!
Verification of the TDengine RPC connection cache (`src/rpc/src/rpcCache.c`)
and the vnode allocator (`src/mnode/src/mgmtBalance.c`) against their
natural-language specification.

The C code is shallowly embedded: each bucket of the cache is a Lean list of
entries (the C doubly-linked `SConnHash` list read from head to tail), the
per-bucket counters are a list of integers (C `int`), timestamps are naturals
(C `uint64_t` milliseconds), and every operation is a pure function that also
returns the list of payloads on which the cleanup callback `cleanFp` was
invoked during that operation.
-/

namespace RpcCache

/-- One cache entry: the C struct `SConnHash` (rpcCache.c:25-33) without the
intrusive `prev`/`next` pointers, which are represented by the position of the
entry inside its bucket's list.  `data` models the opaque `void *data` payload
pointer as a natural number (`0` = NULL). `connType` is the C `int8_t`. -/
structure SConnHash where
  ip : Nat
  port : Nat
  connType : Int
  data : Nat
  time : Nat
deriving DecidableEq, Repr

/-- The cache state: the C struct `SConnCache` (rpcCache.c:35-47).
`connHashList` holds one list per bucket, `count` the per-bucket entry
counters (C `int`), `total` the advisory total counter.  The memory pool,
mutex, lock array and timer handles carry no list state and are omitted;
the pool's occupancy equals the number of live entries (see `usedSlots`). -/
structure SConnCache where
  connHashList : List (List SConnHash)
  count : List Int
  total : Int
  maxSessions : Nat
  keepTimer : Nat
deriving DecidableEq, Repr

/-- `rpcHashConn` (rpcCache.c:254-266): the C `int` sum
`(ip >> 16) + (unsigned short)(ip & 0xFFFF) + port + connType` followed by the
C `%` operator, which is truncated division remainder (`Int.tmod`), so the
result is negative when the sum is negative. -/
def rpcHashConn (maxSessions : Nat) (ip port : Nat) (connType : Int) : Int :=
  Int.tmod (((ip >>> 16 : Nat) : Int) + ((ip % 65536 : Nat) : Int) + (port : Int) + connType)
    (maxSessions : Int)

/-- The bucket index actually used to subscript `connHashList`, `count` and
`lockedBy`: the C `int hash` converted to a list index.  For a non-negative
hash this is exact; a negative hash is an out-of-bounds access in C. -/
def hashIdx (maxSessions : Nat) (ip port : Nat) (connType : Int) : Nat :=
  (rpcHashConn maxSessions ip port connType).toNat

/-- Number of slab slots in use: `taosMemPoolInit(maxSessions, …)` at
rpcCache.c:60 creates one slot per session, one slot per live entry. -/
def usedSlots (s : SConnCache) : Nat :=
  (s.connHashList.map List.length).sum

/-- `rpcRemoveExpiredNodes` (rpcCache.c:232-252) applied to the suffix of a
bucket starting at `pNode`: if the suffix is empty or its head is still fresh
(`time < keepTimer + pNode->time`) nothing changes; otherwise the whole
suffix is evicted (the C `while` loop walks to the tail unconditionally),
invoking the cleanup callback on every node.  Returns
(remaining suffix, evicted nodes in callback order). -/
def rpcRemoveExpiredNodes (keepTimer time : Nat) (l : List SConnHash) :
    List SConnHash × List SConnHash :=
  match l with
  | [] => ([], [])
  | e :: rest => if keepTimer + e.time ≤ time then ([], e :: rest) else (e :: rest, [])

/-- `rpcAddConnIntoCache` (rpcCache.c:117-153).
`assert(data)` is the C NULL check; the slab allocation
`taosMemPoolMalloc` happens *before* any eviction, and its result is
dereferenced without a NULL check, so a full pool is modelled as `none`
(crash / undefined behaviour).  Modelled from the spec: the slab allocator
(`tmempool`, not under src/) hands out one of `maxSessions` fixed slots and
fails on exhaustion (spec §6).  On success the new node is pushed at the
bucket head, the counter incremented, and `rpcRemoveExpiredNodes` is applied
to the former head (the new node's successor). -/
def rpcAddConnIntoCache (s : SConnCache) (data ip port : Nat) (connType : Int) (time : Nat) :
    Option (SConnCache × List SConnHash) :=
  if data = 0 then none
  else if usedSlots s < s.maxSessions then
    let hash := hashIdx s.maxSessions ip port connType
    let node : SConnHash := ⟨ip, port, connType, data, time⟩
    let old := s.connHashList.getD hash []
    let r := rpcRemoveExpiredNodes s.keepTimer time old
    some ({ s with
            connHashList := s.connHashList.set hash (node :: r.1),
            count := s.count.set hash (s.count.getD hash 0 + 1 - (r.2.length : Int)),
            total := s.total + 1 - (r.2.length : Int) }, r.2)
  else none

/-- The `while (pNode)` walk of `rpcGetConnFromCache` (rpcCache.c:169-180)
together with the post-walk truncation at rpcCache.c:183: walking from the
head, the first expired node triggers eviction of the whole remaining suffix
and a miss; the first matching fresh node is the hit, and
`rpcRemoveExpiredNodes` is applied to its successor.  Returns
(new bucket list, evicted nodes, hit node). -/
def rpcGetWalk (keepTimer time ip port : Nat) (connType : Int) :
    List SConnHash → List SConnHash × List SConnHash × Option SConnHash
  | [] => ([], [], none)
  | e :: rest =>
    if keepTimer + e.time ≤ time then ([], e :: rest, none)
    else if e.ip = ip ∧ e.port = port ∧ e.connType = connType then
      let r := rpcRemoveExpiredNodes keepTimer time rest
      (r.1, r.2, some e)
    else
      let r := rpcGetWalk keepTimer time ip port connType rest
      (e :: r.1, r.2.1, r.2.2)

/-- `rpcGetConnFromCache` (rpcCache.c:155-208): returns
(payload or miss, new cache state, nodes evicted with the cleanup callback).
A hit is unlinked, its slot freed, and `total`/`count` decremented; every
evicted node also decrements both counters. -/
def rpcGetConnFromCache (s : SConnCache) (ip port : Nat) (connType : Int) (time : Nat) :
    Option Nat × SConnCache × List SConnHash :=
  let hash := hashIdx s.maxSessions ip port connType
  let old := s.connHashList.getD hash []
  let w := rpcGetWalk s.keepTimer time ip port connType old
  let removed : Int := (w.2.1.length : Int) + (if w.2.2.isSome then 1 else 0)
  (w.2.2.map SConnHash.data,
   { s with
     connHashList := s.connHashList.set hash w.1,
     count := s.count.set hash (s.count.getD hash 0 - removed),
     total := s.total - removed },
   w.2.1)

/-- `rpcCleanConnCache` (rpcCache.c:210-230): the periodic sweep applies
`rpcRemoveExpiredNodes` to every bucket's head.  Returns the new state and,
for each bucket, the list of nodes evicted there (cleanup callback order). -/
def rpcCleanConnCache (s : SConnCache) (time : Nat) : SConnCache × List (List SConnHash) :=
  let swept := s.connHashList.map (rpcRemoveExpiredNodes s.keepTimer time)
  ({ s with
     connHashList := swept.map Prod.fst,
     count := List.zipWith (fun c p => c - ((Prod.snd p).length : Int)) s.count swept,
     total := s.total - ((swept.map (fun p => (Prod.snd p).length)).sum : Int) },
   swept.map Prod.snd)

/-- `rpcCloseConnCache` (rpcCache.c:93-115): teardown stops the timer and
frees the pool and arrays; it never invokes `cleanFp`, so its cleanup-callback
trace is empty. -/
def rpcCloseConnCache (_s : SConnCache) : List SConnHash :=
  []

/-- `rpcOpenConnCache` (rpcCache.c:55-91): `maxSessions` empty buckets,
zeroed counters, TTL `keepTimer`. -/
def rpcOpenConnCache (maxSessions keepTimer : Nat) : SConnCache :=
  ⟨List.replicate maxSessions [], List.replicate maxSessions 0, 0, maxSessions, keepTimer⟩

/-- One cache operation, used to describe reachable states. -/
inductive Op where
  | put (data ip port : Nat) (connType : Int)
  | get (ip port : Nat) (connType : Int)
  | sweep
deriving DecidableEq, Repr

/-- Run one timestamped operation; `none` models the crash of an unchecked
slab-allocation failure inside `put`. -/
def execOp (s : SConnCache) (top : Nat × Op) : Option SConnCache :=
  match top.2 with
  | .put d i p c => (rpcAddConnIntoCache s d i p c top.1).map Prod.fst
  | .get i p c => some (rpcGetConnFromCache s i p c top.1).2.1
  | .sweep => some (rpcCleanConnCache s top.1).1

/-- Run a list of timestamped operations. -/
def exec (s : SConnCache) : List (Nat × Op) → Option SConnCache
  | [] => some s
  | op :: ops => (execOp s op).bind fun s' => exec s' ops

/-- Well-formed shape: the arrays allocated by `rpcOpenConnCache` have
`maxSessions` cells. -/
def WF (s : SConnCache) : Prop :=
  s.connHashList.length = s.maxSessions ∧ s.count.length = s.maxSessions

/-- Every bucket is ordered by non-increasing insertion time, head to tail. -/
def BucketsSorted (s : SConnCache) : Prop :=
  ∀ l ∈ s.connHashList, l.Pairwise (fun a b => b.time ≤ a.time)

/-- All entry timestamps are at most `t` (entries were inserted no later
than `t`). -/
def TimesLe (s : SConnCache) (t : Nat) : Prop :=
  ∀ l ∈ s.connHashList, ∀ e ∈ l, e.time ≤ t

/-- An operation uses a non-negative connection-kind tag (the values the RPC
layer actually passes; a negative tag makes the C bucket index negative, see
claim C5). -/
def Op.ctypeOk : Op → Prop
  | .put _ _ _ c => 0 ≤ c
  | .get _ _ c => 0 ≤ c
  | .sweep => True

instance : (o : Op) → Decidable o.ctypeOk
  | .put _ _ _ c => inferInstanceAs (Decidable (0 ≤ c))
  | .get _ _ c => inferInstanceAs (Decidable (0 ≤ c))
  | .sweep => inferInstanceAs (Decidable True)

instance (s : SConnCache) : Decidable (WF s) :=
  inferInstanceAs
    (Decidable (s.connHashList.length = s.maxSessions ∧ s.count.length = s.maxSessions))

/-- Key-match predicate used by the `get` walk (rpcCache.c:177). -/
def keyMatch (ip port : Nat) (ct : Int) (p : SConnHash) : Prop :=
  p.ip = ip ∧ p.port = port ∧ p.connType = ct

instance (ip port : Nat) (ct : Int) (p : SConnHash) : Decidable (keyMatch ip port ct p) :=
  inferInstanceAs (Decidable (p.ip = ip ∧ p.port = port ∧ p.connType = ct))

/-- Per-bucket counter equals the bucket's list length (spec §3 invariant). -/
def CountOk (s : SConnCache) : Prop :=
  ∀ i : Nat, s.count.getD i 0 = ((s.connHashList.getD i []).length : Int)

/-- The combined state invariant: well-shaped arrays, counters matching list
lengths, every bucket sorted by non-increasing time, every entry inserted no
later than `t`. -/
def Inv (s : SConnCache) (t : Nat) : Prop :=
  WF s ∧ CountOk s ∧ BucketsSorted s ∧ TimesLe s t

end RpcCache

namespace MgmtBalance

/-- The fields of `SDnodeObj` read by `balanceAllocVnodes`
(mgmtBalance.c:27-58); integer fields are C 32-bit integers, modelled as
unbounded `Int` (the comparisons and ratios involved cannot overflow). -/
structure SDnodeObj where
  dnodeId : Int
  privateIp : Nat
  publicIp : Nat
  openVnodes : Int
  numOfTotalVnodes : Int
deriving DecidableEq, Repr

/-- One element of `SVgObj.vnodeGid`; `balanceAllocVnodes` writes slot 0. -/
structure SVnodeGid where
  dnodeId : Int
  privateIp : Nat
  publicIp : Nat
deriving DecidableEq, Repr

/-- The part of `SVgObj` touched by `balanceAllocVnodes`: its first
`vnodeGid` slot. -/
structure SVgObj where
  vnodeGid0 : SVnodeGid
deriving DecidableEq, Repr

/-- `TSDB_CODE_SUCCESS`. -/
def TSDB_CODE_SUCCESS : Nat := 0

/-- `TSDB_CODE_NO_ENOUGH_DNODES`: the numeric value lives in a header outside
the two source files; only its distinctness from success matters here. -/
def TSDB_CODE_NO_ENOUGH_DNODES : Nat := 1

/-- Round half to even to an integer: the tie-breaking rule of IEEE-754
round-to-nearest. -/
def rne (x : Rat) : Int :=
  if x - ⌊x⌋ < 1/2 then ⌊x⌋
  else if 1/2 < x - ⌊x⌋ then ⌊x⌋ + 1
  else if ⌊x⌋ % 2 = 0 then ⌊x⌋ else ⌊x⌋ + 1

/-- Round a positive rational to 24 significand bits: the normalized
significand `q / 2 ^ (exponent - 23)` lies in `[2^23, 2^24)` and is rounded
to the nearest integer, ties to even. -/
def roundFloatPos (q : Rat) : Rat :=
  ((rne (q / 2 ^ (Int.log 2 q - 23)) : Int) : Rat) * 2 ^ (Int.log 2 q - 23)

/-- The value of a rational correctly rounded to IEEE-754 binary32
(round-to-nearest-even).  The exponent is unbounded in the model, which is
exact for every value `balanceAllocVnodes` computes: int32 magnitudes and
their ratios stay far inside the binary32 normal range (no overflow, no
subnormals). -/
def roundFloat (q : Rat) : Rat :=
  if q = 0 then 0
  else if q < 0 then -roundFloatPos (-q)
  else roundFloatPos q

/-- The `float usage` computed at mgmtBalance.c:38:
`(float)openVnodes / numOfTotalVnodes` converts both `int32` operands to
binary32 and divides with correct rounding, so the value is
`roundFloat (roundFloat openVnodes / roundFloat numOfTotalVnodes)`. -/
def dnodeUsage (d : SDnodeObj) : Rat :=
  roundFloat (roundFloat (d.openVnodes : Rat) / roundFloat (d.numOfTotalVnodes : Rat))

/-- The exact rational utilization ratio `openVnodes / numOfTotalVnodes`
(what the C `float` of mgmtBalance.c:38 approximates). -/
def dnodeUsageExact (d : SDnodeObj) : Rat :=
  (d.openVnodes : Rat) / (d.numOfTotalVnodes : Rat)

/-- The `while (1)` scan of `balanceAllocVnodes` (mgmtBalance.c:33-45) over
the dnode list, carrying `pSelDnode` and `vnodeUsage` (initially `1.0`,
exactly representable).  The comparison `usage <= vnodeUsage` compares two
binary32 values, whose order coincides with the order of the rationals they
denote. -/
def balanceScan : List SDnodeObj → Option SDnodeObj → Rat → Option SDnodeObj × Rat
  | [], sel, u => (sel, u)
  | d :: rest, sel, u =>
    if 0 < d.numOfTotalVnodes ∧ d.openVnodes < d.numOfTotalVnodes then
      if dnodeUsage d ≤ u then balanceScan rest (some d) (dnodeUsage d)
      else balanceScan rest sel u
    else balanceScan rest sel u

/-- A dnode is considered by the scan (mgmtBalance.c:37). -/
def dnodeQualifies (d : SDnodeObj) : Prop :=
  0 < d.numOfTotalVnodes ∧ d.openVnodes < d.numOfTotalVnodes

instance (d : SDnodeObj) : Decidable (dnodeQualifies d) :=
  inferInstanceAs (Decidable (0 < d.numOfTotalVnodes ∧ d.openVnodes < d.numOfTotalVnodes))

/-- `balanceAllocVnodes` (mgmtBalance.c:27-58): scan all dnodes; on success
write the selected dnode's id and addresses into the vgroup's first slot,
otherwise return `TSDB_CODE_NO_ENOUGH_DNODES` leaving the vgroup unchanged. -/
def balanceAllocVnodes (dnodes : List SDnodeObj) (pVgroup : SVgObj) : Nat × SVgObj :=
  match balanceScan dnodes none 1 with
  | (none, _) => (TSDB_CODE_NO_ENOUGH_DNODES, pVgroup)
  | (some sel, _) =>
    (TSDB_CODE_SUCCESS, { pVgroup with vnodeGid0 := ⟨sel.dnodeId, sel.privateIp, sel.publicIp⟩ })

end MgmtBalance

namespace RpcCache

lemma getD_set_self {α : Type _} (l : List α) (i : Nat) (a d : α) (h : i < l.length) :
    (l.set i a).getD i d = a := by
  simp [List.getD_eq_getElem?_getD, List.getElem?_set_self h]

lemma getD_set_ne {α : Type _} (l : List α) {i j : Nat} (a d : α) (h : i ≠ j) :
    (l.set i a).getD j d = l.getD j d := by
  simp [List.getD_eq_getElem?_getD, List.getElem?_set_ne h]

lemma hashIdx_lt (maxSessions ip port : Nat) (ct : Int) (hm : 0 < maxSessions) (hc : 0 ≤ ct) :
    hashIdx maxSessions ip port ct < maxSessions := by
  have hs : (0 : Int) ≤ ((ip >>> 16 : Nat) : Int) + ((ip % 65536 : Nat) : Int) + (port : Int) + ct := by
    positivity
  have hmod : rpcHashConn maxSessions ip port ct =
      (((ip >>> 16 : Nat) : Int) + ((ip % 65536 : Nat) : Int) + (port : Int) + ct) % (maxSessions : Int) :=
    Int.tmod_eq_emod hs (by positivity)
  have hlt : rpcHashConn maxSessions ip port ct < (maxSessions : Int) := by
    rw [hmod]
    exact Int.emod_lt_of_pos _ (by exact_mod_cast hm)
  have : (hashIdx maxSessions ip port ct : Int) < (maxSessions : Int) := by
    unfold hashIdx
    calc ((rpcHashConn maxSessions ip port ct).toNat : Int)
        ≤ max (rpcHashConn maxSessions ip port ct) 0 := by
          rw [Int.toNat_eq_max]
      _ < (maxSessions : Int) := by
          rcases max_cases (rpcHashConn maxSessions ip port ct) 0 with ⟨h1, _⟩ | ⟨h1, _⟩
          · rw [h1]; exact hlt
          · rw [h1]; exact_mod_cast hm
  exact_mod_cast this

lemma removeExpired_append (kt t : Nat) (l : List SConnHash) :
    (rpcRemoveExpiredNodes kt t l).1 ++ (rpcRemoveExpiredNodes kt t l).2 = l := by
  cases l with
  | nil => rfl
  | cons e rest =>
    by_cases h : kt + e.time ≤ t <;> simp [rpcRemoveExpiredNodes, h]

lemma removeExpired_cases (kt t : Nat) (l : List SConnHash) :
    rpcRemoveExpiredNodes kt t l = (l, []) ∨
    ((∀ c, l.head? = some c → kt + c.time ≤ t) ∧ l ≠ [] ∧
      rpcRemoveExpiredNodes kt t l = ([], l)) := by
  cases l with
  | nil => left; rfl
  | cons e rest =>
    by_cases h : kt + e.time ≤ t
    · right
      refine ⟨?_, by simp, by simp [rpcRemoveExpiredNodes, h]⟩
      intro c hc
      simp at hc
      exact hc ▸ h
    · left; simp [rpcRemoveExpiredNodes, h]

lemma removeExpired_cleaned_expired (kt t : Nat) (l : List SConnHash)
    (hs : l.Pairwise (fun a b => b.time ≤ a.time)) :
    ∀ e ∈ (rpcRemoveExpiredNodes kt t l).2, kt + e.time ≤ t := by
  cases l with
  | nil => simp [rpcRemoveExpiredNodes]
  | cons f rest =>
    by_cases h : kt + f.time ≤ t
    · intro e he
      simp [rpcRemoveExpiredNodes, h] at he
      rcases he with he | he
      · exact he ▸ h
      · have : e.time ≤ f.time := (List.pairwise_cons.mp hs).1 e he
        omega
    · simp [rpcRemoveExpiredNodes, h]

lemma rpcGetWalk_none_spec (kt t ip port : Nat) (ct : Int) :
    ∀ (l newl cleaned : List SConnHash),
      rpcGetWalk kt t ip port ct l = (newl, cleaned, none) →
      l = newl ++ cleaned ∧
      (∀ p ∈ newl, t < kt + p.time ∧ ¬ keyMatch ip port ct p) ∧
      (∀ c, cleaned.head? = some c → kt + c.time ≤ t) := by
  intro l
  induction l with
  | nil =>
    intro newl cleaned h
    simp [rpcGetWalk] at h
    obtain ⟨h1, h2⟩ := h
    subst h1; subst h2
    simp
  | cons e rest ih =>
    intro newl cleaned h
    by_cases hexp : kt + e.time ≤ t
    · simp [rpcGetWalk, hexp] at h
      obtain ⟨h1, h2⟩ := h
      subst h1; subst h2
      refine ⟨by simp, by simp, ?_⟩
      intro c hc
      simp at hc
      exact hc ▸ hexp
    · by_cases hm : e.ip = ip ∧ e.port = port ∧ e.connType = ct
      · simp [rpcGetWalk, hexp, hm] at h
      · have hw : rpcGetWalk kt t ip port ct (e :: rest) =
            (e :: (rpcGetWalk kt t ip port ct rest).1,
              (rpcGetWalk kt t ip port ct rest).2.1,
              (rpcGetWalk kt t ip port ct rest).2.2) := by
          simp [rpcGetWalk, hexp, hm]
        rw [hw] at h
        have h1 := congrArg Prod.fst h
        have h2 := congrArg (fun x : List SConnHash × List SConnHash × Option SConnHash => x.2.1) h
        have h3 := congrArg (fun x : List SConnHash × List SConnHash × Option SConnHash => x.2.2) h
        simp only at h1 h2 h3
        have hrec : rpcGetWalk kt t ip port ct rest =
            ((rpcGetWalk kt t ip port ct rest).1, (rpcGetWalk kt t ip port ct rest).2.1, none) := by
          rw [← h3]
        obtain ⟨ih1, ih2, ih3⟩ := ih _ _ hrec
        subst h1; subst h2
        refine ⟨by simp [← ih1], ?_, ih3⟩
        intro p hp
        rcases List.mem_cons.mp hp with hp | hp
        · subst hp
          exact ⟨by omega, by simpa [keyMatch] using hm⟩
        · exact ih2 p hp

lemma rpcGetWalk_some_spec (kt t ip port : Nat) (ct : Int) :
    ∀ (l newl cleaned : List SConnHash) (e : SConnHash),
      rpcGetWalk kt t ip port ct l = (newl, cleaned, some e) →
      (t < kt + e.time) ∧ keyMatch ip port ct e ∧
      ∃ P rest, newl = P ++ rest ∧ l = P ++ e :: (rest ++ cleaned) ∧
        (∀ p ∈ P, t < kt + p.time ∧ ¬ keyMatch ip port ct p) ∧
        rpcRemoveExpiredNodes kt t (rest ++ cleaned) = (rest, cleaned) := by
  intro l
  induction l with
  | nil =>
    intro newl cleaned e h
    simp [rpcGetWalk] at h
  | cons f rest ih =>
    intro newl cleaned e h
    by_cases hexp : kt + f.time ≤ t
    · simp [rpcGetWalk, hexp] at h
    · by_cases hm : f.ip = ip ∧ f.port = port ∧ f.connType = ct
      · simp [rpcGetWalk, hexp, hm] at h
        obtain ⟨h1, h2, h3⟩ := h
        subst h1; subst h2; subst h3
        refine ⟨by omega, by simpa [keyMatch] using hm, ?_⟩
        refine ⟨[], (rpcRemoveExpiredNodes kt t rest).1, by simp, ?_, by simp, ?_⟩
        · simp [removeExpired_append]
        · rw [removeExpired_append]
      · have hw : rpcGetWalk kt t ip port ct (f :: rest) =
            (f :: (rpcGetWalk kt t ip port ct rest).1,
              (rpcGetWalk kt t ip port ct rest).2.1,
              (rpcGetWalk kt t ip port ct rest).2.2) := by
          simp [rpcGetWalk, hexp, hm]
        rw [hw] at h
        have h1 := congrArg Prod.fst h
        have h2 := congrArg (fun x : List SConnHash × List SConnHash × Option SConnHash => x.2.1) h
        have h3 := congrArg (fun x : List SConnHash × List SConnHash × Option SConnHash => x.2.2) h
        simp only at h1 h2 h3
        have hrec : rpcGetWalk kt t ip port ct rest =
            ((rpcGetWalk kt t ip port ct rest).1, (rpcGetWalk kt t ip port ct rest).2.1, some e) := by
          rw [← h3]
        obtain ⟨ih1, ih2, P, rest', ihP1, ihP2, ihP3, ihP4⟩ := ih _ _ _ hrec
        subst h1; subst h2
        refine ⟨ih1, ih2, f :: P, rest', by rw [ihP1, List.cons_append],
          by rw [List.cons_append]; exact congrArg (List.cons f) ihP2, ?_, ihP4⟩
        intro p hp
        rcases List.mem_cons.mp hp with hp | hp
        · subst hp
          exact ⟨by omega, by simpa [keyMatch] using hm⟩
        · exact ihP3 p hp

lemma rpcGetWalk_perm (kt t ip port : Nat) (ct : Int) (l newl cleaned : List SConnHash)
    (hit : Option SConnHash) (h : rpcGetWalk kt t ip port ct l = (newl, cleaned, hit)) :
    List.Perm (newl ++ cleaned ++ hit.toList) l := by
  cases hit with
  | none =>
    obtain ⟨h1, -, -⟩ := rpcGetWalk_none_spec kt t ip port ct l newl cleaned h
    rw [h1]
    simp
  | some e =>
    obtain ⟨-, -, P, rest', hn, hl, -, -⟩ := rpcGetWalk_some_spec kt t ip port ct l newl cleaned e h
    rw [hn, hl]
    have p1 : List.Perm ((P ++ rest') ++ cleaned ++ [e]) (e :: ((P ++ rest') ++ cleaned)) :=
      List.perm_append_singleton e _
    have p2 : List.Perm (P ++ e :: (rest' ++ cleaned)) (e :: (P ++ (rest' ++ cleaned))) :=
      List.perm_middle
    refine p1.trans (List.Perm.trans ?_ p2.symm)
    simp [List.append_assoc]

lemma rpcGetWalk_sorted (kt t ip port : Nat) (ct : Int) (l newl cleaned : List SConnHash)
    (hit : Option SConnHash) (h : rpcGetWalk kt t ip port ct l = (newl, cleaned, hit))
    (hs : l.Pairwise (fun a b => b.time ≤ a.time)) :
    newl.Pairwise (fun a b => b.time ≤ a.time) := by
  cases hit with
  | none =>
    obtain ⟨h1, -, -⟩ := rpcGetWalk_none_spec kt t ip port ct l newl cleaned h
    rw [h1] at hs
    exact ((List.pairwise_append.mp hs).1)
  | some e =>
    obtain ⟨-, -, P, rest', hn, hl, -, -⟩ := rpcGetWalk_some_spec kt t ip port ct l newl cleaned e h
    have hsub : List.Sublist newl l := by
      rw [hn, hl]
      exact (List.append_sublist_append_left P).mpr
        (List.Sublist.cons e (List.sublist_append_left rest' cleaned))
    exact List.Pairwise.sublist hsub hs

lemma rpcGetWalk_sublist (kt t ip port : Nat) (ct : Int) (l newl cleaned : List SConnHash)
    (hit : Option SConnHash) (h : rpcGetWalk kt t ip port ct l = (newl, cleaned, hit)) :
    List.Sublist newl l := by
  cases hit with
  | none =>
    obtain ⟨h1, -, -⟩ := rpcGetWalk_none_spec kt t ip port ct l newl cleaned h
    rw [h1]
    exact List.sublist_append_left newl cleaned
  | some e =>
    obtain ⟨-, -, P, rest', hn, hl, -, -⟩ := rpcGetWalk_some_spec kt t ip port ct l newl cleaned e h
    rw [hn, hl]
    exact (List.append_sublist_append_left P).mpr
      (List.Sublist.cons e (List.sublist_append_left rest' cleaned))

lemma getD_bucket_sorted (s : SConnCache) (hs : BucketsSorted s) (i : Nat) :
    (s.connHashList.getD i []).Pairwise (fun a b => b.time ≤ a.time) := by
  by_cases h : i < s.connHashList.length
  · rw [List.getD_eq_getElem _ _ h]
    exact hs _ (List.getElem_mem h)
  · rw [List.getD_eq_default _ _ (by omega)]
    exact List.Pairwise.nil

lemma getD_bucket_timesLe (s : SConnCache) (t : Nat) (ht : TimesLe s t) (i : Nat) :
    ∀ e ∈ s.connHashList.getD i [], e.time ≤ t := by
  by_cases h : i < s.connHashList.length
  · rw [List.getD_eq_getElem _ _ h]
    exact ht _ (List.getElem_mem h)
  · rw [List.getD_eq_default _ _ (by omega)]
    simp

lemma inv_open (maxSessions keepTimer t : Nat) : Inv (rpcOpenConnCache maxSessions keepTimer) t := by
  refine ⟨⟨by simp [rpcOpenConnCache], by simp [rpcOpenConnCache]⟩, ?_, ?_, ?_⟩
  · intro i
    by_cases h : i < maxSessions
    · simp [rpcOpenConnCache, List.getD_eq_getElem, h]
    · have h1 : (List.replicate maxSessions (0 : Int)).getD i 0 = 0 :=
        List.getD_eq_default _ _ (by simpa using Nat.le_of_not_lt h)
      have h2 : (List.replicate maxSessions ([] : List SConnHash)).getD i [] = [] :=
        List.getD_eq_default _ _ (by simpa using Nat.le_of_not_lt h)
      simp [rpcOpenConnCache, h1, h2]
  · intro l hl
    simp [rpcOpenConnCache] at hl
    simp [hl]
  · intro l hl
    simp [rpcOpenConnCache] at hl
    simp [hl]

lemma put_eq (s : SConnCache) (d ip port : Nat) (ct : Int) (t : Nat)
    (hd : d ≠ 0) (hu : usedSlots s < s.maxSessions) :
    rpcAddConnIntoCache s d ip port ct t =
      some ({ s with
        connHashList := s.connHashList.set (hashIdx s.maxSessions ip port ct)
          ((⟨ip, port, ct, d, t⟩ : SConnHash) ::
            (rpcRemoveExpiredNodes s.keepTimer t
              (s.connHashList.getD (hashIdx s.maxSessions ip port ct) [])).1),
        count := s.count.set (hashIdx s.maxSessions ip port ct)
          (s.count.getD (hashIdx s.maxSessions ip port ct) 0 + 1 -
            ((rpcRemoveExpiredNodes s.keepTimer t
              (s.connHashList.getD (hashIdx s.maxSessions ip port ct) [])).2.length : Int)),
        total := s.total + 1 -
          ((rpcRemoveExpiredNodes s.keepTimer t
            (s.connHashList.getD (hashIdx s.maxSessions ip port ct) [])).2.length : Int) },
      (rpcRemoveExpiredNodes s.keepTimer t
        (s.connHashList.getD (hashIdx s.maxSessions ip port ct) [])).2) := by
  simp [rpcAddConnIntoCache, hd, hu]

lemma put_none (s : SConnCache) (d ip port : Nat) (ct : Int) (t : Nat)
    (h : d = 0 ∨ ¬ usedSlots s < s.maxSessions) :
    rpcAddConnIntoCache s d ip port ct t = none := by
  rcases h with h | h
  · simp [rpcAddConnIntoCache, h]
  · by_cases hd : d = 0 <;> simp [rpcAddConnIntoCache, hd, h]

lemma put_inv (s : SConnCache) (d ip port : Nat) (ct : Int) (t t' : Nat) (s' : SConnCache)
    (cleaned : List SConnHash) (hmax : 0 < s.maxSessions) (hct : 0 ≤ ct) (htt : t ≤ t')
    (hinv : Inv s t) (h : rpcAddConnIntoCache s d ip port ct t' = some (s', cleaned)) :
    Inv s' t' ∧ s'.maxSessions = s.maxSessions ∧ s'.keepTimer = s.keepTimer := by
  obtain ⟨hwf, hcnt, hsort, htle⟩ := hinv
  have hh : hashIdx s.maxSessions ip port ct < s.maxSessions := hashIdx_lt _ _ _ _ hmax hct
  have hhl : hashIdx s.maxSessions ip port ct < s.connHashList.length := by rw [hwf.1]; exact hh
  have hhc : hashIdx s.maxSessions ip port ct < s.count.length := by rw [hwf.2]; exact hh
  by_cases hd : d = 0
  · rw [put_none s d ip port ct t' (Or.inl hd)] at h
    exact absurd h (by simp)
  by_cases hu : usedSlots s < s.maxSessions
  swap
  · rw [put_none s d ip port ct t' (Or.inr hu)] at h
    exact absurd h (by simp)
  rw [put_eq s d ip port ct t' hd hu, Option.some_inj] at h
  have hs' := congrArg Prod.fst h
  simp only at hs'
  set hash := hashIdx s.maxSessions ip port ct
  set old := s.connHashList.getD hash [] with hold
  set r := rpcRemoveExpiredNodes s.keepTimer t' old with hr
  have hr1 : r.1 = old ∨ r.1 = [] := by
    rcases removeExpired_cases s.keepTimer t' old with hc | hc
    · left; rw [hr, hc]
    · right; rw [hr, hc.2.2]
  have holdsort : old.Pairwise (fun a b => b.time ≤ a.time) := getD_bucket_sorted s hsort hash
  have holdle : ∀ e ∈ old, e.time ≤ t := getD_bucket_timesLe s t htle hash
  subst hs'
  refine ⟨⟨⟨by simp [hwf.1], by simp [hwf.2]⟩, ?_, ?_, ?_⟩, rfl, rfl⟩
  · intro i
    by_cases hi : i = hash
    · subst hi
      rw [getD_set_self _ _ _ _ hhc, getD_set_self _ _ _ _ hhl]
      have hlen : old.length = r.1.length + r.2.length := by
        conv_lhs => rw [← removeExpired_append s.keepTimer t' old, ← hr]
        simp
      have hci : s.count.getD hash 0 = ((s.connHashList.getD hash []).length : Int) := hcnt hash
      rw [← hold] at hci
      rw [hci]
      simp only [List.length_cons]
      push_cast
      omega
    · rw [getD_set_ne _ _ _ (fun he => hi he.symm), getD_set_ne _ _ _ (fun he => hi he.symm)]
      exact hcnt i
  · intro l' hl'
    rcases List.mem_or_eq_of_mem_set hl' with hl' | hl'
    · exact hsort l' hl'
    · subst hl'
      refine List.pairwise_cons.mpr ⟨?_, ?_⟩
      · intro x hx
        have hxo : x ∈ old := by
          rcases hr1 with h1 | h1 <;> rw [h1] at hx
          · exact hx
          · exact absurd hx (List.not_mem_nil x)
        have := holdle x hxo
        simp only
        omega
      · rcases hr1 with h1 | h1 <;> rw [h1]
        · exact holdsort
        · exact List.Pairwise.nil
  · intro l' hl' e he
    rcases List.mem_or_eq_of_mem_set hl' with hl' | hl'
    · exact le_trans (htle l' hl' e he) htt
    · subst hl'
      rcases List.mem_cons.mp he with he | he
      · simp [he]
      · have hxo : e ∈ old := by
          rcases hr1 with h1 | h1 <;> rw [h1] at he
          · exact he
          · exact absurd he (List.not_mem_nil e)
        exact le_trans (holdle e hxo) htt

lemma get_eq (s : SConnCache) (ip port : Nat) (ct : Int) (t : Nat) :
    rpcGetConnFromCache s ip port ct t =
      ((rpcGetWalk s.keepTimer t ip port ct
          (s.connHashList.getD (hashIdx s.maxSessions ip port ct) [])).2.2.map SConnHash.data,
       { s with
         connHashList := s.connHashList.set (hashIdx s.maxSessions ip port ct)
           (rpcGetWalk s.keepTimer t ip port ct
             (s.connHashList.getD (hashIdx s.maxSessions ip port ct) [])).1,
         count := s.count.set (hashIdx s.maxSessions ip port ct)
           (s.count.getD (hashIdx s.maxSessions ip port ct) 0 -
             (((rpcGetWalk s.keepTimer t ip port ct
                 (s.connHashList.getD (hashIdx s.maxSessions ip port ct) [])).2.1.length : Int) +
              (if (rpcGetWalk s.keepTimer t ip port ct
                    (s.connHashList.getD (hashIdx s.maxSessions ip port ct) [])).2.2.isSome
               then 1 else 0))),
         total := s.total -
           (((rpcGetWalk s.keepTimer t ip port ct
               (s.connHashList.getD (hashIdx s.maxSessions ip port ct) [])).2.1.length : Int) +
            (if (rpcGetWalk s.keepTimer t ip port ct
                  (s.connHashList.getD (hashIdx s.maxSessions ip port ct) [])).2.2.isSome
             then 1 else 0)) },
       (rpcGetWalk s.keepTimer t ip port ct
         (s.connHashList.getD (hashIdx s.maxSessions ip port ct) [])).2.1) := rfl

lemma get_inv (s : SConnCache) (ip port : Nat) (ct : Int) (t t' : Nat)
    (hmax : 0 < s.maxSessions) (hct : 0 ≤ ct) (htt : t ≤ t') (hinv : Inv s t) :
    Inv (rpcGetConnFromCache s ip port ct t').2.1 t' ∧
    (rpcGetConnFromCache s ip port ct t').2.1.maxSessions = s.maxSessions ∧
    (rpcGetConnFromCache s ip port ct t').2.1.keepTimer = s.keepTimer := by
  obtain ⟨hwf, hcnt, hsort, htle⟩ := hinv
  have hh : hashIdx s.maxSessions ip port ct < s.maxSessions := hashIdx_lt _ _ _ _ hmax hct
  have hhl : hashIdx s.maxSessions ip port ct < s.connHashList.length := by rw [hwf.1]; exact hh
  have hhc : hashIdx s.maxSessions ip port ct < s.count.length := by rw [hwf.2]; exact hh
  have hcihash : s.count.getD (hashIdx s.maxSessions ip port ct) 0 =
      (((s.connHashList.getD (hashIdx s.maxSessions ip port ct) []).length : Int)) :=
    hcnt (hashIdx s.maxSessions ip port ct)
  have holdsort := getD_bucket_sorted s hsort (hashIdx s.maxSessions ip port ct)
  have holdle := getD_bucket_timesLe s t htle (hashIdx s.maxSessions ip port ct)
  rw [get_eq]
  generalize hg : rpcGetWalk s.keepTimer t' ip port ct
      (s.connHashList.getD (hashIdx s.maxSessions ip port ct) []) = w
  have hweq : rpcGetWalk s.keepTimer t' ip port ct
      (s.connHashList.getD (hashIdx s.maxSessions ip port ct) []) = (w.1, w.2.1, w.2.2) := by
    rw [hg]
  have hperm := rpcGetWalk_perm s.keepTimer t' ip port ct _ w.1 w.2.1 w.2.2 hweq
  have hsub := rpcGetWalk_sublist s.keepTimer t' ip port ct _ w.1 w.2.1 w.2.2 hweq
  refine ⟨⟨⟨by simp [hwf.1], by simp [hwf.2]⟩, ?_, ?_, ?_⟩, rfl, rfl⟩
  · intro i
    by_cases hi : i = hashIdx s.maxSessions ip port ct
    · subst hi
      simp only
      rw [getD_set_self _ _ _ _ hhc, getD_set_self _ _ _ _ hhl, hcihash]
      have hlen := hperm.length_eq
      simp only [List.length_append] at hlen
      cases hhit : w.2.2 with
      | none =>
        rw [hhit] at hlen
        simp only [Option.toList_none, List.length_nil] at hlen
        simp only [hhit, Option.isSome_none, Bool.false_eq_true, if_false]
        omega
      | some e =>
        rw [hhit] at hlen
        simp only [Option.toList_some, List.length_cons, List.length_nil] at hlen
        simp only [hhit, Option.isSome_some, if_true]
        omega
    · simp only
      rw [getD_set_ne _ _ _ (fun he => hi he.symm), getD_set_ne _ _ _ (fun he => hi he.symm)]
      exact hcnt i
  · intro l' hl'
    simp only at hl'
    rcases List.mem_or_eq_of_mem_set hl' with hl' | hl'
    · exact hsort l' hl'
    · subst hl'
      exact rpcGetWalk_sorted s.keepTimer t' ip port ct _ w.1 w.2.1 w.2.2 hweq holdsort
  · intro l' hl' e he
    simp only at hl'
    rcases List.mem_or_eq_of_mem_set hl' with hl' | hl'
    · exact le_trans (htle l' hl' e he) htt
    · subst hl'
      exact le_trans (holdle e (hsub.subset he)) htt

lemma sweep_inv (s : SConnCache) (t t' : Nat) (htt : t ≤ t') (hinv : Inv s t) :
    Inv (rpcCleanConnCache s t').1 t' ∧
    (rpcCleanConnCache s t').1.maxSessions = s.maxSessions ∧
    (rpcCleanConnCache s t').1.keepTimer = s.keepTimer := by
  obtain ⟨hwf, hcnt, hsort, htle⟩ := hinv
  have hfst : ∀ l : List SConnHash, (rpcRemoveExpiredNodes s.keepTimer t' l).1 = l ∨
      (rpcRemoveExpiredNodes s.keepTimer t' l).1 = [] := by
    intro l
    rcases removeExpired_cases s.keepTimer t' l with hc | hc
    · left; rw [hc]
    · right; rw [hc.2.2]
  refine ⟨⟨⟨?_, ?_⟩, ?_, ?_, ?_⟩, by simp [rpcCleanConnCache], by simp [rpcCleanConnCache]⟩
  · simp [rpcCleanConnCache, hwf.1]
  · simp [rpcCleanConnCache, hwf.2, hwf.1]
  · intro i
    simp only [rpcCleanConnCache]
    by_cases hi : i < s.maxSessions
    · have hil : i < s.connHashList.length := by rw [hwf.1]; exact hi
      have hic : i < s.count.length := by rw [hwf.2]; exact hi
      have h1 : ((s.connHashList.map (rpcRemoveExpiredNodes s.keepTimer t')).map Prod.fst).getD i [] =
          (rpcRemoveExpiredNodes s.keepTimer t' (s.connHashList.getD i [])).1 := by
        rw [List.getD_eq_getElem _ _ (by simpa using hil), List.getD_eq_getElem _ _ hil]
        simp [List.getElem_map]
      have h2 : (List.zipWith (fun c p => c - ((Prod.snd p).length : Int)) s.count
            (s.connHashList.map (rpcRemoveExpiredNodes s.keepTimer t'))).getD i 0 =
          s.count.getD i 0 -
            ((rpcRemoveExpiredNodes s.keepTimer t' (s.connHashList.getD i [])).2.length : Int) := by
        rw [List.getD_eq_getElem _ _ (by simp; omega), List.getD_eq_getElem _ _ hic,
          List.getD_eq_getElem _ _ hil]
        simp [List.getElem_zipWith, List.getElem_map]
      rw [h1, h2, hcnt i]
      have hlen : (s.connHashList.getD i []).length =
          (rpcRemoveExpiredNodes s.keepTimer t' (s.connHashList.getD i [])).1.length +
          (rpcRemoveExpiredNodes s.keepTimer t' (s.connHashList.getD i [])).2.length := by
        conv_lhs => rw [← removeExpired_append s.keepTimer t' (s.connHashList.getD i [])]
        simp
      omega
    · have hil : s.connHashList.length ≤ i := by rw [hwf.1]; omega
      have hic : s.count.length ≤ i := by rw [hwf.2]; omega
      have h1 : ((s.connHashList.map (rpcRemoveExpiredNodes s.keepTimer t')).map Prod.fst).getD i
          [] = [] :=
        List.getD_eq_default _ _ (by simpa using hil)
      have h2 : (List.zipWith (fun c p => c - ((Prod.snd p).length : Int)) s.count
            (s.connHashList.map (rpcRemoveExpiredNodes s.keepTimer t'))).getD i 0 = 0 :=
        List.getD_eq_default _ _
          (by rw [List.length_zipWith]; simp only [List.length_map]; omega)
      rw [h1, h2]
      simp
  · intro l' hl'
    simp only [rpcCleanConnCache, List.map_map] at hl'
    obtain ⟨l, hl, hfl⟩ := List.mem_map.mp hl'
    rcases hfst l with h1 | h1 <;> rw [← hfl] <;> simp only [Function.comp] <;> rw [h1]
    · exact hsort l hl
    · exact List.Pairwise.nil
  · intro l' hl' e he
    simp only [rpcCleanConnCache, List.map_map] at hl'
    obtain ⟨l, hl, hfl⟩ := List.mem_map.mp hl'
    rcases hfst l with h1 | h1 <;> rw [← hfl] at he <;> simp only [Function.comp] at he <;> rw [h1] at he
    · exact le_trans (htle l hl e he) htt
    · exact absurd he (List.not_mem_nil e)

lemma execOp_inv (s : SConnCache) (tt : Nat) (o : Op) (s' : SConnCache) (t : Nat)
    (hmax : 0 < s.maxSessions) (hok : o.ctypeOk) (htt : t ≤ tt)
    (hinv : Inv s t) (h : execOp s (tt, o) = some s') :
    Inv s' tt ∧ s'.maxSessions = s.maxSessions ∧ s'.keepTimer = s.keepTimer := by
  cases o with
  | put d i p c =>
    simp only [execOp] at h
    cases hput : rpcAddConnIntoCache s d i p c tt with
    | none => rw [hput] at h; exact absurd h (by simp)
    | some pr =>
      rw [hput] at h
      have h' : pr.1 = s' := by simpa using h
      subst h'
      exact put_inv s d i p c t tt pr.1 pr.2 hmax hok htt hinv (by rw [hput])
  | get i p c =>
    simp only [execOp, Option.some_inj] at h
    subst h
    exact get_inv s i p c t tt hmax hok htt hinv
  | sweep =>
    simp only [execOp, Option.some_inj] at h
    subst h
    exact sweep_inv s t tt htt hinv

lemma exec_inv : ∀ (ops : List (Nat × Op)) (s : SConnCache) (t : Nat) (s' : SConnCache),
    0 < s.maxSessions → (∀ op ∈ ops, (Prod.snd op).ctypeOk) →
    List.Chain (fun a b => a ≤ b) t (ops.map Prod.fst) →
    Inv s t → exec s ops = some s' →
    (∃ tf, Inv s' tf) ∧ s'.maxSessions = s.maxSessions := by
  intro ops
  induction ops with
  | nil =>
    intro s t s' _ _ _ hinv h
    simp only [exec, Option.some_inj] at h
    subst h
    exact ⟨⟨t, hinv⟩, rfl⟩
  | cons op ops ih =>
    intro s t s' hmax hok hchain hinv h
    obtain ⟨tt, o⟩ := op
    simp only [exec] at h
    cases hstep : execOp s (tt, o) with
    | none => rw [hstep] at h; exact absurd h (by simp)
    | some s1 =>
      rw [hstep] at h
      have h2 : exec s1 ops = some s' := h
      simp only [List.map_cons] at hchain
      have hchain1 := List.chain_cons.mp hchain
      obtain ⟨hinv1, hms, -⟩ :=
        execOp_inv s tt o s1 t hmax (hok (tt, o) (by simp)) hchain1.1 hinv hstep
      obtain ⟨hi, hm⟩ := ih s1 tt s' (by rw [hms]; exact hmax)
        (fun q hq => hok q (by simp [hq])) hchain1.2 hinv1 h2
      exact ⟨hi, by rw [hm, hms]⟩

lemma put_invC (s : SConnCache) (d ip port : Nat) (ct : Int) (t : Nat) (s' : SConnCache)
    (cleaned : List SConnHash) (hmax : 0 < s.maxSessions) (hct : 0 ≤ ct)
    (hwf : WF s) (hcnt : CountOk s)
    (h : rpcAddConnIntoCache s d ip port ct t = some (s', cleaned)) :
    WF s' ∧ CountOk s' ∧ s'.maxSessions = s.maxSessions := by
  have hh : hashIdx s.maxSessions ip port ct < s.maxSessions := hashIdx_lt _ _ _ _ hmax hct
  have hhl : hashIdx s.maxSessions ip port ct < s.connHashList.length := by rw [hwf.1]; exact hh
  have hhc : hashIdx s.maxSessions ip port ct < s.count.length := by rw [hwf.2]; exact hh
  by_cases hd : d = 0
  · rw [put_none s d ip port ct t (Or.inl hd)] at h
    exact absurd h (by simp)
  by_cases hu : usedSlots s < s.maxSessions
  swap
  · rw [put_none s d ip port ct t (Or.inr hu)] at h
    exact absurd h (by simp)
  rw [put_eq s d ip port ct t hd hu, Option.some_inj] at h
  have hs' := congrArg Prod.fst h
  simp only at hs'
  set hash := hashIdx s.maxSessions ip port ct
  set old := s.connHashList.getD hash [] with hold
  set r := rpcRemoveExpiredNodes s.keepTimer t old with hr
  subst hs'
  refine ⟨⟨by simp [hwf.1], by simp [hwf.2]⟩, ?_, rfl⟩
  intro i
  by_cases hi : i = hash
  · subst hi
    rw [getD_set_self _ _ _ _ hhc, getD_set_self _ _ _ _ hhl]
    have hlen : old.length = r.1.length + r.2.length := by
      conv_lhs => rw [← removeExpired_append s.keepTimer t old, ← hr]
      simp
    have hci : s.count.getD hash 0 = ((s.connHashList.getD hash []).length : Int) := hcnt hash
    rw [← hold] at hci
    rw [hci]
    simp only [List.length_cons]
    omega
  · rw [getD_set_ne _ _ _ (fun he => hi he.symm), getD_set_ne _ _ _ (fun he => hi he.symm)]
    exact hcnt i

lemma get_invC (s : SConnCache) (ip port : Nat) (ct : Int) (t : Nat)
    (hmax : 0 < s.maxSessions) (hct : 0 ≤ ct) (hwf : WF s) (hcnt : CountOk s) :
    WF (rpcGetConnFromCache s ip port ct t).2.1 ∧
    CountOk (rpcGetConnFromCache s ip port ct t).2.1 ∧
    (rpcGetConnFromCache s ip port ct t).2.1.maxSessions = s.maxSessions := by
  have hh : hashIdx s.maxSessions ip port ct < s.maxSessions := hashIdx_lt _ _ _ _ hmax hct
  have hhl : hashIdx s.maxSessions ip port ct < s.connHashList.length := by rw [hwf.1]; exact hh
  have hhc : hashIdx s.maxSessions ip port ct < s.count.length := by rw [hwf.2]; exact hh
  have hcihash : s.count.getD (hashIdx s.maxSessions ip port ct) 0 =
      (((s.connHashList.getD (hashIdx s.maxSessions ip port ct) []).length : Int)) :=
    hcnt (hashIdx s.maxSessions ip port ct)
  rw [get_eq]
  generalize hg : rpcGetWalk s.keepTimer t ip port ct
      (s.connHashList.getD (hashIdx s.maxSessions ip port ct) []) = w
  have hweq : rpcGetWalk s.keepTimer t ip port ct
      (s.connHashList.getD (hashIdx s.maxSessions ip port ct) []) = (w.1, w.2.1, w.2.2) := by
    rw [hg]
  have hperm := rpcGetWalk_perm s.keepTimer t ip port ct _ w.1 w.2.1 w.2.2 hweq
  refine ⟨⟨by simp [hwf.1], by simp [hwf.2]⟩, ?_, rfl⟩
  intro i
  by_cases hi : i = hashIdx s.maxSessions ip port ct
  · subst hi
    simp only
    rw [getD_set_self _ _ _ _ hhc, getD_set_self _ _ _ _ hhl, hcihash]
    have hlen := hperm.length_eq
    simp only [List.length_append] at hlen
    cases hhit : w.2.2 with
    | none =>
      rw [hhit] at hlen
      simp only [Option.toList_none, List.length_nil] at hlen
      simp only [hhit, Option.isSome_none, Bool.false_eq_true, if_false]
      omega
    | some e =>
      rw [hhit] at hlen
      simp only [Option.toList_some, List.length_cons, List.length_nil] at hlen
      simp only [hhit, Option.isSome_some, if_true]
      omega
  · simp only
    rw [getD_set_ne _ _ _ (fun he => hi he.symm), getD_set_ne _ _ _ (fun he => hi he.symm)]
    exact hcnt i

lemma sweep_invC (s : SConnCache) (t : Nat) (hwf : WF s) (hcnt : CountOk s) :
    WF (rpcCleanConnCache s t).1 ∧ CountOk (rpcCleanConnCache s t).1 ∧
    (rpcCleanConnCache s t).1.maxSessions = s.maxSessions := by
  refine ⟨⟨by simp [rpcCleanConnCache, hwf.1], by simp [rpcCleanConnCache, hwf.2, hwf.1]⟩, ?_, rfl⟩
  intro i
  simp only [rpcCleanConnCache]
  by_cases hi : i < s.maxSessions
  · have hil : i < s.connHashList.length := by rw [hwf.1]; exact hi
    have hic : i < s.count.length := by rw [hwf.2]; exact hi
    have h1 : ((s.connHashList.map (rpcRemoveExpiredNodes s.keepTimer t)).map Prod.fst).getD i [] =
        (rpcRemoveExpiredNodes s.keepTimer t (s.connHashList.getD i [])).1 := by
      rw [List.getD_eq_getElem _ _ (by simpa using hil), List.getD_eq_getElem _ _ hil]
      simp [List.getElem_map]
    have h2 : (List.zipWith (fun c p => c - ((Prod.snd p).length : Int)) s.count
          (s.connHashList.map (rpcRemoveExpiredNodes s.keepTimer t))).getD i 0 =
        s.count.getD i 0 -
          ((rpcRemoveExpiredNodes s.keepTimer t (s.connHashList.getD i [])).2.length : Int) := by
      rw [List.getD_eq_getElem _ _ (by simp; omega), List.getD_eq_getElem _ _ hic,
        List.getD_eq_getElem _ _ hil]
      simp [List.getElem_zipWith, List.getElem_map]
    rw [h1, h2, hcnt i]
    have hlen : (s.connHashList.getD i []).length =
        (rpcRemoveExpiredNodes s.keepTimer t (s.connHashList.getD i [])).1.length +
        (rpcRemoveExpiredNodes s.keepTimer t (s.connHashList.getD i [])).2.length := by
      conv_lhs => rw [← removeExpired_append s.keepTimer t (s.connHashList.getD i [])]
      simp
    omega
  · have hil : s.connHashList.length ≤ i := by rw [hwf.1]; omega
    have hic : s.count.length ≤ i := by rw [hwf.2]; omega
    have h1 : ((s.connHashList.map (rpcRemoveExpiredNodes s.keepTimer t)).map Prod.fst).getD i
        [] = [] :=
      List.getD_eq_default _ _ (by simpa using hil)
    have h2 : (List.zipWith (fun c p => c - ((Prod.snd p).length : Int)) s.count
          (s.connHashList.map (rpcRemoveExpiredNodes s.keepTimer t))).getD i 0 = 0 :=
      List.getD_eq_default _ _
        (by rw [List.length_zipWith]; simp only [List.length_map]; omega)
    rw [h1, h2]
    simp

lemma exec_invC : ∀ (ops : List (Nat × Op)) (s : SConnCache) (s' : SConnCache),
    0 < s.maxSessions → (∀ op ∈ ops, (Prod.snd op).ctypeOk) →
    WF s → CountOk s → exec s ops = some s' →
    WF s' ∧ CountOk s' ∧ s'.maxSessions = s.maxSessions := by
  intro ops
  induction ops with
  | nil =>
    intro s s' _ _ hwf hcnt h
    simp only [exec, Option.some_inj] at h
    subst h
    exact ⟨hwf, hcnt, rfl⟩
  | cons op ops ih =>
    intro s s' hmax hok hwf hcnt h
    obtain ⟨tt, o⟩ := op
    simp only [exec] at h
    cases hstep : execOp s (tt, o) with
    | none => rw [hstep] at h; exact absurd h (by simp)
    | some s1 =>
      rw [hstep] at h
      have h2 : exec s1 ops = some s' := h
      have hstep1 : WF s1 ∧ CountOk s1 ∧ s1.maxSessions = s.maxSessions := by
        cases o with
        | put d i p c =>
          simp only [execOp] at hstep
          cases hput : rpcAddConnIntoCache s d i p c tt with
          | none => rw [hput] at hstep; exact absurd hstep (by simp)
          | some pr =>
            rw [hput] at hstep
            have h' : pr.1 = s1 := by simpa using hstep
            subst h'
            exact put_invC s d i p c tt pr.1 pr.2 hmax (hok (tt, .put d i p c) (by simp)) hwf hcnt
              (by rw [hput])
        | get i p c =>
          simp only [execOp, Option.some_inj] at hstep
          subst hstep
          exact get_invC s i p c tt hmax (hok (tt, .get i p c) (by simp)) hwf hcnt
        | sweep =>
          simp only [execOp, Option.some_inj] at hstep
          subst hstep
          exact sweep_invC s tt hwf hcnt
      obtain ⟨hwf1, hcnt1, hms⟩ := hstep1
      obtain ⟨ha, hb, hc⟩ := ih s1 s' (by rw [hms]; exact hmax)
        (fun q hq => hok q (by simp [hq])) hwf1 hcnt1 h2
      exact ⟨ha, hb, by rw [hc, hms]⟩

/-- C1: with capacity 2, after two `put`s both entries are live, and a third
distinct same-bucket `put` is `none` (the unchecked `taosMemPoolMalloc`
result is dereferenced, a crash) — both when the TTL has not elapsed (third
`put` at time 0) and when it has (third `put` at time 200 with TTL 100,
because the allocation at rpcCache.c:129 happens before the eviction at
rpcCache.c:144).  No recoverable capacity-exhaustion failure is surfaced and
no stale tail is evicted, contradicting the claim. -/
theorem claim1_put_crashes_on_full_slab :
    exec (rpcOpenConnCache 2 100) [(0, Op.put 1 0 0 0), (0, Op.put 2 2 0 0)] =
      some ⟨[[⟨2, 0, 0, 2, 0⟩, ⟨0, 0, 0, 1, 0⟩], []], [2, 0], 2, 2, 100⟩ ∧
    exec (rpcOpenConnCache 2 100) [(0, Op.put 1 0 0 0), (0, Op.put 2 2 0 0), (0, Op.put 3 4 0 0)] =
      none ∧
    exec (rpcOpenConnCache 2 100)
      [(0, Op.put 1 0 0 0), (0, Op.put 2 2 0 0), (200, Op.put 3 4 0 0)] = none := by
  refine ⟨by decide, by decide, by decide⟩

/-- C5 as stated is false: for kind `-1` (a value of the signed 8-bit
`connType`), the C `%` is a truncated remainder, so the bucket index is `-1`,
which is not `((address >> 16) + (address & 0xFFFF) + port + kind) mod 10 = 9`
and lies outside `[0, 10)` — an out-of-bounds bucket/lock array access. -/
theorem claim5_counterexample_negative_kind :
    rpcHashConn 10 0 0 (-1) = -1 ∧ ¬ (0 ≤ rpcHashConn 10 0 0 (-1)) := by
  refine ⟨by decide, by decide⟩

/-- C5 (amended): for every address, port and *non-negative* kind, and any
positive bucket count, the bucket index equals
`((address >> 16) + (address & 0xFFFF) + port + kind) mod bucketCount` and
lies within `[0, bucketCount)`, so the bucket-array and lock-array accesses
are in bounds; for a negative kind the index can be negative
(`claim5_counterexample_negative_kind`). -/
theorem claim5_hash_in_bounds (maxSessions ip port : Nat) (ct : Int)
    (hm : 0 < maxSessions) (hc : 0 ≤ ct) :
    rpcHashConn maxSessions ip port ct =
      ((((ip >>> 16) + ip % 65536 + port + ct.toNat) % maxSessions : Nat) : Int) ∧
    0 ≤ rpcHashConn maxSessions ip port ct ∧
    rpcHashConn maxSessions ip port ct < maxSessions ∧
    hashIdx maxSessions ip port ct < maxSessions := by
  have hct : (ct.toNat : Int) = ct := Int.toNat_of_nonneg hc
  have hsum : ((ip >>> 16 : Nat) : Int) + ((ip % 65536 : Nat) : Int) + (port : Int) + ct =
      (((ip >>> 16) + ip % 65536 + port + ct.toNat : Nat) : Int) := by
    push_cast
    rw [hct]
  have hmain : rpcHashConn maxSessions ip port ct =
      ((((ip >>> 16) + ip % 65536 + port + ct.toNat) % maxSessions : Nat) : Int) := by
    unfold rpcHashConn
    rw [hsum, ← Int.ofNat_tmod]
  refine ⟨hmain, by rw [hmain]; positivity, ?_, hashIdx_lt maxSessions ip port ct hm hc⟩
  rw [hmain]
  exact_mod_cast Nat.mod_lt _ hm

/-- Witness for C5 (amended) at address 300000, port 7, kind 3, 10 buckets. -/
theorem claim5_hash_in_bounds_witness :
    (0 < 10 ∧ (0 : Int) ≤ 3) ∧
    (rpcHashConn 10 300000 7 3 =
        ((((300000 >>> 16) + 300000 % 65536 + 7 + (3 : Int).toNat) % 10 : Nat) : Int) ∧
      0 ≤ rpcHashConn 10 300000 7 3 ∧
      rpcHashConn 10 300000 7 3 < 10 ∧
      hashIdx 10 300000 7 3 < 10) :=
  ⟨⟨by decide, by decide⟩, claim5_hash_in_bounds 10 300000 7 3 (by decide) (by decide)⟩

/-- C8: for every sequence of `put`/`get`/sweep operations (with the
non-negative kind tags the RPC layer passes) executed from a freshly opened
cache, every bucket's entry counter equals the length of that bucket's list
after the sequence — in particular after each operation of a single-bucket
sequence, since every prefix of such a sequence is such a sequence. -/
theorem claim8_count_eq_length (maxSessions keepTimer : Nat) (ops : List (Nat × Op))
    (s' : SConnCache) (hm : 0 < maxSessions)
    (hok : ∀ op ∈ ops, (Prod.snd op).ctypeOk)
    (h : exec (rpcOpenConnCache maxSessions keepTimer) ops = some s') :
    ∀ i : Nat, s'.count.getD i 0 = ((s'.connHashList.getD i []).length : Int) := by
  have hinv := inv_open maxSessions keepTimer 0
  obtain ⟨-, hcnt, -⟩ := exec_invC ops (rpcOpenConnCache maxSessions keepTimer) s'
    (by simpa [rpcOpenConnCache] using hm) hok hinv.1 hinv.2.1 h
  exact hcnt

/-- Witness for C8: a put/put/get/sweep sequence in bucket 0 of a 4-bucket
cache; afterwards the counters of buckets 0 and 1 equal the list lengths. -/
theorem claim8_count_eq_length_witness :
    (0 < 4 ∧
      exec (rpcOpenConnCache 4 100)
        [(0, Op.put 1 0 0 0), (10, Op.put 2 4 0 0), (20, Op.get 0 0 0), (250, Op.sweep)] =
        some ⟨[[], [], [], []], [0, 0, 0, 0], 0, 4, 100⟩) ∧
    (⟨[[], [], [], []], [0, 0, 0, 0], 0, 4, 100⟩ : SConnCache).count.getD 0 0 =
      (((⟨[[], [], [], []], [0, 0, 0, 0], 0, 4, 100⟩ : SConnCache).connHashList.getD 0 []).length :
        Int) ∧
    (⟨[[], [], [], []], [0, 0, 0, 0], 0, 4, 100⟩ : SConnCache).count.getD 1 0 =
      (((⟨[[], [], [], []], [0, 0, 0, 0], 0, 4, 100⟩ : SConnCache).connHashList.getD 1 []).length :
        Int) := by
  have h := claim8_count_eq_length 4 100
    [(0, Op.put 1 0 0 0), (10, Op.put 2 4 0 0), (20, Op.get 0 0 0), (250, Op.sweep)]
    ⟨[[], [], [], []], [0, 0, 0, 0], 0, 4, 100⟩ (by decide) (by decide) (by decide)
  exact ⟨⟨by decide, by decide⟩, h 0, h 1⟩

/-- C4: (1) in every cache state reached from a freshly opened cache by
`put`/`get`/sweep operations with non-decreasing timestamps, every bucket is
ordered by non-increasing insertion time from head to tail; (2) suffix
eviction by `rpcRemoveExpiredNodes` removes exactly a contiguous suffix, and
in a sorted list every evicted entry is no fresher than every kept entry;
(3) the `get` walk's eviction removes a contiguous suffix of the bucket and,
in a sorted bucket, never removes an entry fresher than one it keeps. -/
theorem claim4_sorted_invariant :
    (∀ (maxSessions keepTimer : Nat) (ops : List (Nat × Op)) (s' : SConnCache),
      0 < maxSessions → (∀ op ∈ ops, (Prod.snd op).ctypeOk) →
      List.Chain (fun a b => a ≤ b) 0 (ops.map Prod.fst) →
      exec (rpcOpenConnCache maxSessions keepTimer) ops = some s' →
      BucketsSorted s') ∧
    (∀ (keepTimer time : Nat) (l : List SConnHash),
      l = (rpcRemoveExpiredNodes keepTimer time l).1 ++ (rpcRemoveExpiredNodes keepTimer time l).2 ∧
      (l.Pairwise (fun a b => b.time ≤ a.time) →
        ∀ e ∈ (rpcRemoveExpiredNodes keepTimer time l).2,
          ∀ e' ∈ (rpcRemoveExpiredNodes keepTimer time l).1, e.time ≤ e'.time)) ∧
    (∀ (keepTimer time ip port : Nat) (ct : Int) (l newl cleaned : List SConnHash)
      (hit : Option SConnHash),
      rpcGetWalk keepTimer time ip port ct l = (newl, cleaned, hit) →
      (∃ pre, l = pre ++ cleaned) ∧
      (l.Pairwise (fun a b => b.time ≤ a.time) →
        ∀ e ∈ cleaned, ∀ e' ∈ newl, e.time ≤ e'.time)) := by
  refine ⟨?_, ?_, ?_⟩
  · intro maxSessions keepTimer ops s' hm hok hchain h
    obtain ⟨⟨tf, hinv⟩, -⟩ := exec_inv ops (rpcOpenConnCache maxSessions keepTimer) 0 s'
      (by simpa [rpcOpenConnCache] using hm) hok hchain (inv_open maxSessions keepTimer 0) h
    exact hinv.2.2.1
  · intro keepTimer time l
    refine ⟨(removeExpired_append keepTimer time l).symm, ?_⟩
    intro _ e he e' he'
    rcases removeExpired_cases keepTimer time l with hc | hc
    · rw [hc] at he
      exact absurd he (List.not_mem_nil e)
    · rw [hc.2.2] at he'
      exact absurd he' (List.not_mem_nil e')
  · intro keepTimer time ip port ct l newl cleaned hit h
    cases hit with
    | none =>
      obtain ⟨h1, -, -⟩ := rpcGetWalk_none_spec keepTimer time ip port ct l newl cleaned h
      refine ⟨⟨newl, h1⟩, ?_⟩
      intro hs e he e' he'
      rw [h1] at hs
      exact (List.pairwise_append.mp hs).2.2 e' he' e he
    | some f =>
      obtain ⟨-, -, P, rest', hn, hl, -, -⟩ :=
        rpcGetWalk_some_spec keepTimer time ip port ct l newl cleaned f h
      refine ⟨⟨P ++ f :: rest', by rw [hl]; simp [List.append_assoc]⟩, ?_⟩
      intro hs e he e' he'
      rw [hl] at hs
      obtain ⟨-, hsRest, hcross⟩ := List.pairwise_append.mp hs
      rw [hn] at he'
      rcases List.mem_append.mp he' with he' | he'
      · exact hcross e' he' e (by simp [he])
      · have hpair := (List.pairwise_cons.mp hsRest).2
        exact (List.pairwise_append.mp hpair).2.2 e' he' e he

/-- Witness for C4: two same-bucket puts at times 0 then 5 leave bucket 0
sorted newest-first. -/
theorem claim4_sorted_invariant_witness :
    (0 < 4 ∧
      (∀ op ∈ [(0, Op.put 1 0 0 0), (5, Op.put 2 0 0 0)], (Prod.snd op).ctypeOk) ∧
      List.Chain (fun a b => a ≤ b) 0
        ([(0, Op.put 1 0 0 0), (5, Op.put 2 0 0 0)].map Prod.fst) ∧
      exec (rpcOpenConnCache 4 100) [(0, Op.put 1 0 0 0), (5, Op.put 2 0 0 0)] =
        some ⟨[[⟨0, 0, 0, 2, 5⟩, ⟨0, 0, 0, 1, 0⟩], [], [], []], [2, 0, 0, 0], 2, 4, 100⟩) ∧
    BucketsSorted ⟨[[⟨0, 0, 0, 2, 5⟩, ⟨0, 0, 0, 1, 0⟩], [], [], []], [2, 0, 0, 0], 2, 4, 100⟩ :=
  ⟨⟨by decide, by decide,
      List.Chain.cons (Nat.le_refl 0) (List.Chain.cons (by omega) List.Chain.nil), by decide⟩,
    claim4_sorted_invariant.1 4 100 [(0, Op.put 1 0 0 0), (5, Op.put 2 0 0 0)]
      ⟨[[⟨0, 0, 0, 2, 5⟩, ⟨0, 0, 0, 1, 0⟩], [], [], []], [2, 0, 0, 0], 2, 4, 100⟩
      (by decide) (by decide)
      (List.Chain.cons (Nat.le_refl 0) (List.Chain.cons (by omega) List.Chain.nil))
      (by decide)⟩

/-- C2 fails as stated: insert payload 1 under a key at time 0 (TTL 100) and
never retrieve it, insert payload 2 under the same key at time 50; the `get`
for that key at time 100 ≥ 0 + TTL returns the fresher duplicate (payload 2)
— a hit, not the miss the claim requires for every `get` of that entry's
(address, port, kind). -/
theorem claim2_counterexample_fresh_duplicate_hit :
    (rpcGetConnFromCache
      ((exec (rpcOpenConnCache 4 100)
        [(0, Op.put 1 0 0 0), (50, Op.put 2 0 0 0)]).getD (rpcOpenConnCache 0 0))
      0 0 0 100).1 = some 2 := by
  decide

/-- C2 (amended): if every entry in the bucket matching the key is expired at
the `get`'s time (in particular when the inserted entry is the only one with
its key), then a `get` at time ≥ T + TTL is a miss, every entry remaining in
the bucket is fresh, the expired entry is evicted as part of a contiguous
evicted suffix of the bucket, and every copy of it leaves the bucket in this
one operation (the cleanup callback fires exactly once per evicted copy,
never again later, since the entry is no longer in the bucket). -/
theorem claim2_expired_entry_get_miss (s : SConnCache) (ip port : Nat) (ct : Int) (t : Nat)
    (e : SConnHash) (res : Option Nat) (s' : SConnCache) (cleaned : List SConnHash)
    (hmax : 0 < s.maxSessions) (hct : 0 ≤ ct) (hwf : WF s)
    (he : e ∈ s.connHashList.getD (hashIdx s.maxSessions ip port ct) [])
    (hkey : keyMatch ip port ct e)
    (hexp : s.keepTimer + e.time ≤ t)
    (hdup : ∀ e' ∈ s.connHashList.getD (hashIdx s.maxSessions ip port ct) [],
      keyMatch ip port ct e' → s.keepTimer + e'.time ≤ t)
    (h : rpcGetConnFromCache s ip port ct t = (res, s', cleaned)) :
    res = none ∧
    (∀ e' ∈ s'.connHashList.getD (hashIdx s.maxSessions ip port ct) [],
      t < s.keepTimer + e'.time) ∧
    e ∈ cleaned ∧
    s.connHashList.getD (hashIdx s.maxSessions ip port ct) [] =
      s'.connHashList.getD (hashIdx s.maxSessions ip port ct) [] ++ cleaned ∧
    cleaned.count e = (s.connHashList.getD (hashIdx s.maxSessions ip port ct) []).count e := by
  have hh : hashIdx s.maxSessions ip port ct < s.maxSessions := hashIdx_lt _ _ _ _ hmax hct
  have hhl : hashIdx s.maxSessions ip port ct < s.connHashList.length := by rw [hwf.1]; exact hh
  rw [get_eq] at h
  generalize hg : rpcGetWalk s.keepTimer t ip port ct
      (s.connHashList.getD (hashIdx s.maxSessions ip port ct) []) = w at h
  have hweq : rpcGetWalk s.keepTimer t ip port ct
      (s.connHashList.getD (hashIdx s.maxSessions ip port ct) []) = (w.1, w.2.1, w.2.2) := by
    rw [hg]
  cases hhit : w.2.2 with
  | some f =>
    rw [hhit] at hweq
    obtain ⟨hffresh, hfkey, P, rest', -, hl, -, -⟩ :=
      rpcGetWalk_some_spec s.keepTimer t ip port ct _ w.1 w.2.1 f hweq
    have hfmem : f ∈ s.connHashList.getD (hashIdx s.maxSessions ip port ct) [] := by
      rw [hl]
      exact List.mem_append.mpr (Or.inr (by simp))
    have := hdup f hfmem hfkey
    omega
  | none =>
    rw [hhit] at hweq
    obtain ⟨hl, hfresh, -⟩ := rpcGetWalk_none_spec s.keepTimer t ip port ct _ w.1 w.2.1 hweq
    injection h with hres h23
    injection h23 with hstate hclean
    rw [hhit] at hres
    have hres : (none : Option Nat) = res := hres
    have hbucket : s'.connHashList.getD (hashIdx s.maxSessions ip port ct) [] = w.1 := by
      rw [← hstate]
      exact getD_set_self _ _ _ _ hhl
    have henotfresh : e ∉ w.1 := by
      intro hmem
      have := (hfresh e hmem).1
      omega
    refine ⟨hres.symm, ?_, ?_, ?_, ?_⟩
    · intro e' he'
      rw [hbucket] at he'
      exact (hfresh e' he').1
    · rw [← hclean]
      rw [hl] at he
      rcases List.mem_append.mp he with hm | hm
      · exact absurd hm henotfresh
      · exact hm
    · rw [hbucket, ← hclean]
      exact hl
    · rw [← hclean]
      have hcount : (s.connHashList.getD (hashIdx s.maxSessions ip port ct) []).count e =
          w.1.count e + w.2.1.count e := by
        rw [hl]
        exact List.count_append e w.1 w.2.1
      rw [hcount, List.count_eq_zero.mpr henotfresh]
      omega

/-- Witness for C2 (amended): a single-bucket cache holding one entry with
payload 7 inserted at time 0, TTL 100; the `get` at time 100 misses, empties
the bucket, and evicts the entry exactly once. -/
theorem claim2_expired_entry_get_miss_witness :
    (0 < 1 ∧ (0 : Int) ≤ 0 ∧ WF ⟨[[⟨0, 0, 0, 7, 0⟩]], [1], 1, 1, 100⟩ ∧
      (⟨0, 0, 0, 7, 0⟩ : SConnHash) ∈
        (⟨[[⟨0, 0, 0, 7, 0⟩]], [1], 1, 1, 100⟩ : SConnCache).connHashList.getD (hashIdx 1 0 0 0) [] ∧
      keyMatch 0 0 0 ⟨0, 0, 0, 7, 0⟩ ∧
      (⟨[[⟨0, 0, 0, 7, 0⟩]], [1], 1, 1, 100⟩ : SConnCache).keepTimer +
        (⟨0, 0, 0, 7, 0⟩ : SConnHash).time ≤ 100 ∧
      rpcGetConnFromCache ⟨[[⟨0, 0, 0, 7, 0⟩]], [1], 1, 1, 100⟩ 0 0 0 100 =
        (none, ⟨[[]], [0], 0, 1, 100⟩, [⟨0, 0, 0, 7, 0⟩])) ∧
    ((none : Option Nat) = none ∧
      (∀ e' ∈ (⟨[[]], [0], 0, 1, 100⟩ : SConnCache).connHashList.getD (hashIdx 1 0 0 0) [],
        100 < (⟨[[⟨0, 0, 0, 7, 0⟩]], [1], 1, 1, 100⟩ : SConnCache).keepTimer + e'.time) ∧
      (⟨0, 0, 0, 7, 0⟩ : SConnHash) ∈ [(⟨0, 0, 0, 7, 0⟩ : SConnHash)] ∧
      (⟨[[⟨0, 0, 0, 7, 0⟩]], [1], 1, 1, 100⟩ : SConnCache).connHashList.getD (hashIdx 1 0 0 0) [] =
        (⟨[[]], [0], 0, 1, 100⟩ : SConnCache).connHashList.getD (hashIdx 1 0 0 0) [] ++
          [⟨0, 0, 0, 7, 0⟩] ∧
      ([(⟨0, 0, 0, 7, 0⟩ : SConnHash)].count ⟨0, 0, 0, 7, 0⟩ =
        ((⟨[[⟨0, 0, 0, 7, 0⟩]], [1], 1, 1, 100⟩ : SConnCache).connHashList.getD
          (hashIdx 1 0 0 0) []).count ⟨0, 0, 0, 7, 0⟩)) :=
  ⟨⟨by decide, by decide, by decide, by decide, by decide, by decide, by decide⟩,
    claim2_expired_entry_get_miss ⟨[[⟨0, 0, 0, 7, 0⟩]], [1], 1, 1, 100⟩ 0 0 0 100
      ⟨0, 0, 0, 7, 0⟩ none ⟨[[]], [0], 0, 1, 100⟩ [⟨0, 0, 0, 7, 0⟩]
      (by decide) (by decide) (by decide) (by decide) (by decide) (by decide)
      (by decide) (by decide)⟩

/-- C3: one sweep pass decides each bucket by its head entry alone: if the
head's age has reached the TTL, the whole bucket list is evicted (every node
goes to the cleanup callback, and when the counter equals the list length it
is reset to 0); if the head is still fresh, the bucket list, its cleaned
list, and its counter are completely unchanged — no condition on the entries
behind the head, so a fresh-headed bucket with a stale tail survives intact
(see the witness). -/
theorem claim3_sweep_head_only (s : SConnCache) (t i : Nat)
    (hi : i < s.maxSessions) (hwf : WF s) :
    (∀ e rest, s.connHashList.getD i [] = e :: rest → s.keepTimer + e.time ≤ t →
      (rpcCleanConnCache s t).1.connHashList.getD i [] = [] ∧
      (rpcCleanConnCache s t).2.getD i [] = e :: rest ∧
      (s.count.getD i 0 = (((e :: rest).length : Nat) : Int) →
        (rpcCleanConnCache s t).1.count.getD i 0 = 0)) ∧
    (∀ e rest, s.connHashList.getD i [] = e :: rest → t < s.keepTimer + e.time →
      (rpcCleanConnCache s t).1.connHashList.getD i [] = s.connHashList.getD i [] ∧
      (rpcCleanConnCache s t).2.getD i [] = [] ∧
      (rpcCleanConnCache s t).1.count.getD i 0 = s.count.getD i 0) ∧
    (s.connHashList.getD i [] = [] →
      (rpcCleanConnCache s t).1.connHashList.getD i [] = [] ∧
      (rpcCleanConnCache s t).2.getD i [] = [] ∧
      (rpcCleanConnCache s t).1.count.getD i 0 = s.count.getD i 0) := by
  have hil : i < s.connHashList.length := by rw [hwf.1]; exact hi
  have hic : i < s.count.length := by rw [hwf.2]; exact hi
  have h1 : (rpcCleanConnCache s t).1.connHashList.getD i [] =
      (rpcRemoveExpiredNodes s.keepTimer t (s.connHashList.getD i [])).1 := by
    simp only [rpcCleanConnCache]
    rw [List.getD_eq_getElem _ _ (by simpa using hil), List.getD_eq_getElem _ _ hil]
    simp [List.getElem_map]
  have h2 : (rpcCleanConnCache s t).1.count.getD i 0 =
      s.count.getD i 0 -
        ((rpcRemoveExpiredNodes s.keepTimer t (s.connHashList.getD i [])).2.length : Int) := by
    simp only [rpcCleanConnCache]
    rw [List.getD_eq_getElem _ _ (by simp; omega), List.getD_eq_getElem _ _ hic,
      List.getD_eq_getElem _ _ hil]
    simp [List.getElem_zipWith, List.getElem_map]
  have h3 : (rpcCleanConnCache s t).2.getD i [] =
      (rpcRemoveExpiredNodes s.keepTimer t (s.connHashList.getD i [])).2 := by
    simp only [rpcCleanConnCache]
    rw [List.getD_eq_getElem _ _ (by simpa using hil), List.getD_eq_getElem _ _ hil]
    simp [List.getElem_map]
  refine ⟨?_, ?_, ?_⟩
  · intro e rest hb hexp
    have hre : rpcRemoveExpiredNodes s.keepTimer t (s.connHashList.getD i []) =
        ([], e :: rest) := by
      rw [hb]
      simp [rpcRemoveExpiredNodes, hexp]
    refine ⟨by rw [h1, hre], by rw [h3, hre], ?_⟩
    intro hcnt
    rw [h2, hre, hcnt]
    simp
  · intro e rest hb hfresh
    have hre : rpcRemoveExpiredNodes s.keepTimer t (s.connHashList.getD i []) =
        (e :: rest, []) := by
      rw [hb]
      simp [rpcRemoveExpiredNodes]
      omega
    refine ⟨by rw [h1, hre, hb], by rw [h3, hre], by rw [h2, hre]; simp⟩
  · intro hb
    have hre : rpcRemoveExpiredNodes s.keepTimer t (s.connHashList.getD i []) = ([], []) := by
      rw [hb]
      rfl
    exact ⟨by rw [h1, hre], by rw [h3, hre], by rw [h2, hre]; simp⟩

/-- Witness for C3 on a two-bucket cache at sweep time 250 with TTL 100:
bucket 0 (head inserted at 0, stale) is fully evicted with its counter reset
to 0; bucket 1 (fresh head inserted at 200 in front of a stale entry
inserted at 0 — the partial-staleness scenario) is left completely
unchanged. -/
theorem claim3_sweep_head_only_witness :
    (1 < 2 ∧ WF ⟨[[⟨0, 0, 0, 5, 0⟩], [⟨1, 0, 0, 6, 200⟩, ⟨1, 0, 0, 4, 0⟩]], [1, 2], 3, 2, 100⟩ ∧
      (⟨[[⟨0, 0, 0, 5, 0⟩], [⟨1, 0, 0, 6, 200⟩, ⟨1, 0, 0, 4, 0⟩]], [1, 2], 3, 2, 100⟩ :
        SConnCache).connHashList.getD 1 [] = [⟨1, 0, 0, 6, 200⟩, ⟨1, 0, 0, 4, 0⟩] ∧
      250 < 100 + 200) ∧
    ((rpcCleanConnCache
        ⟨[[⟨0, 0, 0, 5, 0⟩], [⟨1, 0, 0, 6, 200⟩, ⟨1, 0, 0, 4, 0⟩]], [1, 2], 3, 2, 100⟩
        250).1.connHashList.getD 1 [] =
      (⟨[[⟨0, 0, 0, 5, 0⟩], [⟨1, 0, 0, 6, 200⟩, ⟨1, 0, 0, 4, 0⟩]], [1, 2], 3, 2, 100⟩ :
        SConnCache).connHashList.getD 1 [] ∧
     (rpcCleanConnCache
        ⟨[[⟨0, 0, 0, 5, 0⟩], [⟨1, 0, 0, 6, 200⟩, ⟨1, 0, 0, 4, 0⟩]], [1, 2], 3, 2, 100⟩
        250).2.getD 1 [] = [] ∧
     (rpcCleanConnCache
        ⟨[[⟨0, 0, 0, 5, 0⟩], [⟨1, 0, 0, 6, 200⟩, ⟨1, 0, 0, 4, 0⟩]], [1, 2], 3, 2, 100⟩
        250).1.count.getD 1 0 =
      (⟨[[⟨0, 0, 0, 5, 0⟩], [⟨1, 0, 0, 6, 200⟩, ⟨1, 0, 0, 4, 0⟩]], [1, 2], 3, 2, 100⟩ :
        SConnCache).count.getD 1 0) :=
  ⟨⟨by decide, by decide, by decide, by decide⟩,
    (claim3_sweep_head_only
      ⟨[[⟨0, 0, 0, 5, 0⟩], [⟨1, 0, 0, 6, 200⟩, ⟨1, 0, 0, 4, 0⟩]], [1, 2], 3, 2, 100⟩
      250 1 (by decide) (by decide)).2.1
      ⟨1, 0, 0, 6, 200⟩ [⟨1, 0, 0, 4, 0⟩] (by decide) (by decide)⟩

/-- C6: a successful `put` of payload `d` under (address, port, kind)
followed immediately — no interleaved operation — by a `get` with the same
key before the TTL elapses returns exactly `d`, and the `get` unlinks the
inserted entry: the bucket after the `get` is the inserted entry's former
suffix (with the usual in-line truncation at the `get`'s time), i.e. the
entry itself has been handed to the caller and removed. -/
theorem claim6_put_then_get (s : SConnCache) (d ip port : Nat) (ct : Int) (t1 t2 : Nat)
    (s1 : SConnCache) (cleaned1 : List SConnHash)
    (hmax : 0 < s.maxSessions) (hct : 0 ≤ ct) (hwf : WF s)
    (hfresh : t2 < s.keepTimer + t1)
    (hput : rpcAddConnIntoCache s d ip port ct t1 = some (s1, cleaned1)) :
    (rpcGetConnFromCache s1 ip port ct t2).1 = some d ∧
    s1.connHashList.getD (hashIdx s.maxSessions ip port ct) [] =
      (⟨ip, port, ct, d, t1⟩ : SConnHash) ::
        (rpcRemoveExpiredNodes s.keepTimer t1
          (s.connHashList.getD (hashIdx s.maxSessions ip port ct) [])).1 ∧
    (rpcGetConnFromCache s1 ip port ct t2).2.1.connHashList.getD
        (hashIdx s.maxSessions ip port ct) [] =
      (rpcRemoveExpiredNodes s.keepTimer t2
        ((s1.connHashList.getD (hashIdx s.maxSessions ip port ct) []).drop 1)).1 := by
  by_cases hd : d = 0
  · rw [put_none s d ip port ct t1 (Or.inl hd)] at hput
    exact absurd hput (by simp)
  by_cases hu : usedSlots s < s.maxSessions
  swap
  · rw [put_none s d ip port ct t1 (Or.inr hu)] at hput
    exact absurd hput (by simp)
  rw [put_eq s d ip port ct t1 hd hu, Option.some_inj] at hput
  injection hput with hs1 hcl
  have hh : hashIdx s.maxSessions ip port ct < s.maxSessions := hashIdx_lt _ _ _ _ hmax hct
  have hhl : hashIdx s.maxSessions ip port ct < s.connHashList.length := by rw [hwf.1]; exact hh
  subst hs1
  have hb1 : (s.connHashList.set (hashIdx s.maxSessions ip port ct)
        ((⟨ip, port, ct, d, t1⟩ : SConnHash) ::
          (rpcRemoveExpiredNodes s.keepTimer t1
            (s.connHashList.getD (hashIdx s.maxSessions ip port ct) [])).1)).getD
        (hashIdx s.maxSessions ip port ct) [] =
      (⟨ip, port, ct, d, t1⟩ : SConnHash) ::
        (rpcRemoveExpiredNodes s.keepTimer t1
          (s.connHashList.getD (hashIdx s.maxSessions ip port ct) [])).1 :=
    getD_set_self _ _ _ _ hhl
  have hnotexp : ¬ (s.keepTimer + (⟨ip, port, ct, d, t1⟩ : SConnHash).time ≤ t2) := by
    simp only
    omega
  have hwalk : rpcGetWalk s.keepTimer t2 ip port ct
      ((⟨ip, port, ct, d, t1⟩ : SConnHash) ::
        (rpcRemoveExpiredNodes s.keepTimer t1
          (s.connHashList.getD (hashIdx s.maxSessions ip port ct) [])).1) =
      ((rpcRemoveExpiredNodes s.keepTimer t2
          (rpcRemoveExpiredNodes s.keepTimer t1
            (s.connHashList.getD (hashIdx s.maxSessions ip port ct) [])).1).1,
        (rpcRemoveExpiredNodes s.keepTimer t2
          (rpcRemoveExpiredNodes s.keepTimer t1
            (s.connHashList.getD (hashIdx s.maxSessions ip port ct) [])).1).2,
        some ⟨ip, port, ct, d, t1⟩) := by
    simp [rpcGetWalk, hnotexp]
  refine ⟨?_, hb1, ?_⟩
  · rw [get_eq]
    dsimp only
    rw [hb1, hwalk]
    rfl
  · rw [get_eq]
    dsimp only
    rw [hb1, hwalk]
    dsimp only
    rw [getD_set_self _ _ _ _ (by simpa using hhl)]
    rfl

/-- Witness for C6: put payload 9 under (1, 2, 0) at time 0 into an empty
2-bucket cache, get it back at time 50 (TTL 100): the get returns exactly 9
and bucket 1 is empty again. -/
theorem claim6_put_then_get_witness :
    (0 < 2 ∧ (0 : Int) ≤ 0 ∧ WF (rpcOpenConnCache 2 100) ∧ 50 < 100 + 0 ∧
      rpcAddConnIntoCache (rpcOpenConnCache 2 100) 9 1 2 0 0 =
        some (⟨[[], [⟨1, 2, 0, 9, 0⟩]], [0, 1], 1, 2, 100⟩, [])) ∧
    ((rpcGetConnFromCache ⟨[[], [⟨1, 2, 0, 9, 0⟩]], [0, 1], 1, 2, 100⟩ 1 2 0 50).1 = some 9 ∧
      (⟨[[], [⟨1, 2, 0, 9, 0⟩]], [0, 1], 1, 2, 100⟩ : SConnCache).connHashList.getD
          (hashIdx (rpcOpenConnCache 2 100).maxSessions 1 2 0) [] =
        (⟨1, 2, 0, 9, 0⟩ : SConnHash) ::
          (rpcRemoveExpiredNodes (rpcOpenConnCache 2 100).keepTimer 0
            ((rpcOpenConnCache 2 100).connHashList.getD
              (hashIdx (rpcOpenConnCache 2 100).maxSessions 1 2 0) [])).1 ∧
      (rpcGetConnFromCache ⟨[[], [⟨1, 2, 0, 9, 0⟩]], [0, 1], 1, 2, 100⟩
          1 2 0 50).2.1.connHashList.getD
          (hashIdx (rpcOpenConnCache 2 100).maxSessions 1 2 0) [] =
        (rpcRemoveExpiredNodes (rpcOpenConnCache 2 100).keepTimer 50
          (((⟨[[], [⟨1, 2, 0, 9, 0⟩]], [0, 1], 1, 2, 100⟩ : SConnCache).connHashList.getD
            (hashIdx (rpcOpenConnCache 2 100).maxSessions 1 2 0) []).drop 1)).1) :=
  ⟨⟨by decide, by decide, by decide, by decide, by decide⟩,
    claim6_put_then_get (rpcOpenConnCache 2 100) 9 1 2 0 0 50
      ⟨[[], [⟨1, 2, 0, 9, 0⟩]], [0, 1], 1, 2, 100⟩ []
      (by decide) (by decide) (by decide) (by decide) (by decide)⟩

lemma expired_suffix (kt t : Nat) (cleaned : List SConnHash)
    (hs : cleaned.Pairwise (fun a b => b.time ≤ a.time))
    (hh : ∀ c, cleaned.head? = some c → kt + c.time ≤ t) :
    ∀ e ∈ cleaned, kt + e.time ≤ t := by
  cases cleaned with
  | nil => simp
  | cons c rest =>
    intro e he
    have hc := hh c rfl
    rcases List.mem_cons.mp he with he | he
    · exact he ▸ hc
    · have := (List.pairwise_cons.mp hs).1 e he
      omega

/-- C7: accounting of the cleanup callback.  (1) A `put`'s bucket after the
operation plus its cleaned list is a permutation of the new node plus the old
bucket — every evicted entry is passed to the callback exactly once — and in
a sorted bucket every cleaned entry had reached the TTL (the callback runs
only on the TTL-eviction path).  (2) Likewise for `get`, where the hit entry
is returned to the caller and is not part of the cleaned list.  (3) Likewise
for each bucket of a sweep.  (4) `close` never invokes the callback: its
cleanup trace is empty. -/
theorem claim7_cleanup_exactly_once :
    (∀ (s : SConnCache) (d ip port : Nat) (ct : Int) (t : Nat) (s' : SConnCache)
      (cleaned : List SConnHash),
      0 < s.maxSessions → 0 ≤ ct → WF s →
      rpcAddConnIntoCache s d ip port ct t = some (s', cleaned) →
      List.Perm (s'.connHashList.getD (hashIdx s.maxSessions ip port ct) [] ++ cleaned)
        ((⟨ip, port, ct, d, t⟩ : SConnHash) ::
          s.connHashList.getD (hashIdx s.maxSessions ip port ct) []) ∧
      ((s.connHashList.getD (hashIdx s.maxSessions ip port ct) []).Pairwise
          (fun a b => b.time ≤ a.time) →
        ∀ e ∈ cleaned, s.keepTimer + e.time ≤ t)) ∧
    (∀ (s : SConnCache) (ip port : Nat) (ct : Int) (t : Nat) (res : Option Nat)
      (s' : SConnCache) (cleaned : List SConnHash),
      0 < s.maxSessions → 0 ≤ ct → WF s →
      rpcGetConnFromCache s ip port ct t = (res, s', cleaned) →
      res = (rpcGetWalk s.keepTimer t ip port ct
        (s.connHashList.getD (hashIdx s.maxSessions ip port ct) [])).2.2.map SConnHash.data ∧
      List.Perm
        (s'.connHashList.getD (hashIdx s.maxSessions ip port ct) [] ++ cleaned ++
          (rpcGetWalk s.keepTimer t ip port ct
            (s.connHashList.getD (hashIdx s.maxSessions ip port ct) [])).2.2.toList)
        (s.connHashList.getD (hashIdx s.maxSessions ip port ct) []) ∧
      ((s.connHashList.getD (hashIdx s.maxSessions ip port ct) []).Pairwise
          (fun a b => b.time ≤ a.time) →
        ∀ e ∈ cleaned, s.keepTimer + e.time ≤ t)) ∧
    (∀ (s : SConnCache) (t i : Nat), i < s.maxSessions → WF s →
      List.Perm ((rpcCleanConnCache s t).1.connHashList.getD i [] ++
          (rpcCleanConnCache s t).2.getD i [])
        (s.connHashList.getD i []) ∧
      ((s.connHashList.getD i []).Pairwise (fun a b => b.time ≤ a.time) →
        ∀ e ∈ (rpcCleanConnCache s t).2.getD i [], s.keepTimer + e.time ≤ t)) ∧
    (∀ s : SConnCache, rpcCloseConnCache s = []) := by
  refine ⟨?_, ?_, ?_, fun _ => rfl⟩
  · intro s d ip port ct t s' cleaned hmax hct hwf h
    have hh : hashIdx s.maxSessions ip port ct < s.maxSessions := hashIdx_lt _ _ _ _ hmax hct
    have hhl : hashIdx s.maxSessions ip port ct < s.connHashList.length := by rw [hwf.1]; exact hh
    by_cases hd : d = 0
    · rw [put_none s d ip port ct t (Or.inl hd)] at h
      exact absurd h (by simp)
    by_cases hu : usedSlots s < s.maxSessions
    swap
    · rw [put_none s d ip port ct t (Or.inr hu)] at h
      exact absurd h (by simp)
    rw [put_eq s d ip port ct t hd hu, Option.some_inj] at h
    injection h with hs1 hcl
    subst hs1
    subst hcl
    constructor
    · rw [getD_set_self _ _ _ _ hhl, List.cons_append, removeExpired_append]
    · intro hsort
      exact removeExpired_cleaned_expired s.keepTimer t _ hsort
  · intro s ip port ct t res s' cleaned hmax hct hwf h
    have hh : hashIdx s.maxSessions ip port ct < s.maxSessions := hashIdx_lt _ _ _ _ hmax hct
    have hhl : hashIdx s.maxSessions ip port ct < s.connHashList.length := by rw [hwf.1]; exact hh
    rw [get_eq] at h
    injection h with hres h23
    injection h23 with hstate hclean
    subst hres
    subst hclean
    have hbucket : s'.connHashList.getD (hashIdx s.maxSessions ip port ct) [] =
        (rpcGetWalk s.keepTimer t ip port ct
          (s.connHashList.getD (hashIdx s.maxSessions ip port ct) [])).1 := by
      rw [← hstate]
      exact getD_set_self _ _ _ _ hhl
    have hweq : rpcGetWalk s.keepTimer t ip port ct
        (s.connHashList.getD (hashIdx s.maxSessions ip port ct) []) =
        ((rpcGetWalk s.keepTimer t ip port ct
            (s.connHashList.getD (hashIdx s.maxSessions ip port ct) [])).1,
          (rpcGetWalk s.keepTimer t ip port ct
            (s.connHashList.getD (hashIdx s.maxSessions ip port ct) [])).2.1,
          (rpcGetWalk s.keepTimer t ip port ct
            (s.connHashList.getD (hashIdx s.maxSessions ip port ct) [])).2.2) := rfl
    refine ⟨rfl, ?_, ?_⟩
    · rw [hbucket]
      exact rpcGetWalk_perm s.keepTimer t ip port ct _ _ _ _ hweq
    · intro hsort
      cases hhit : (rpcGetWalk s.keepTimer t ip port ct
          (s.connHashList.getD (hashIdx s.maxSessions ip port ct) [])).2.2 with
      | none =>
        rw [hhit] at hweq
        obtain ⟨hl, -, hhead⟩ := rpcGetWalk_none_spec s.keepTimer t ip port ct _ _ _ hweq
        have hsuffix : (rpcGetWalk s.keepTimer t ip port ct
            (s.connHashList.getD (hashIdx s.maxSessions ip port ct) [])).2.1.Pairwise
            (fun a b => b.time ≤ a.time) := by
          rw [hl] at hsort
          exact (List.pairwise_append.mp hsort).2.1
        exact expired_suffix s.keepTimer t _ hsuffix hhead
      | some f =>
        rw [hhit] at hweq
        obtain ⟨-, -, P, rest', -, hl, -, hre⟩ :=
          rpcGetWalk_some_spec s.keepTimer t ip port ct _ _ _ f hweq
        have hsuffix : (rest' ++
            (rpcGetWalk s.keepTimer t ip port ct
              (s.connHashList.getD (hashIdx s.maxSessions ip port ct) [])).2.1).Pairwise
            (fun a b => b.time ≤ a.time) := by
          rw [hl] at hsort
          have h1 := (List.pairwise_append.mp hsort).2.1
          exact (List.pairwise_cons.mp h1).2
        have := removeExpired_cleaned_expired s.keepTimer t _ hsuffix
        rw [hre] at this
        exact this
  · intro s t i hi hwf
    have hil : i < s.connHashList.length := by rw [hwf.1]; exact hi
    have h1 : (rpcCleanConnCache s t).1.connHashList.getD i [] =
        (rpcRemoveExpiredNodes s.keepTimer t (s.connHashList.getD i [])).1 := by
      simp only [rpcCleanConnCache]
      rw [List.getD_eq_getElem _ _ (by simpa using hil), List.getD_eq_getElem _ _ hil]
      simp [List.getElem_map]
    have h3 : (rpcCleanConnCache s t).2.getD i [] =
        (rpcRemoveExpiredNodes s.keepTimer t (s.connHashList.getD i [])).2 := by
      simp only [rpcCleanConnCache]
      rw [List.getD_eq_getElem _ _ (by simpa using hil), List.getD_eq_getElem _ _ hil]
      simp [List.getElem_map]
    refine ⟨?_, ?_⟩
    · rw [h1, h3, removeExpired_append]
    · intro hsort
      rw [h3]
      exact removeExpired_cleaned_expired s.keepTimer t _ hsort

/-- Witness for C7 (put branch): putting payload 5 at time 200 into a bucket
whose only entry (payload 3, inserted at 0, TTL 100) is stale evicts that
entry exactly once: new bucket plus cleaned list is a permutation of the new
node plus the old bucket, and the cleaned entry had reached the TTL. -/
theorem claim7_cleanup_exactly_once_witness :
    (0 < 2 ∧ (0 : Int) ≤ 0 ∧ WF ⟨[[⟨0, 0, 0, 3, 0⟩], []], [1, 0], 1, 2, 100⟩ ∧
      rpcAddConnIntoCache ⟨[[⟨0, 0, 0, 3, 0⟩], []], [1, 0], 1, 2, 100⟩ 5 0 0 0 200 =
        some (⟨[[⟨0, 0, 0, 5, 200⟩], []], [1, 0], 1, 2, 100⟩, [⟨0, 0, 0, 3, 0⟩]) ∧
      ((⟨[[⟨0, 0, 0, 3, 0⟩], []], [1, 0], 1, 2, 100⟩ : SConnCache).connHashList.getD
          (hashIdx 2 0 0 0) []).Pairwise (fun a b => b.time ≤ a.time)) ∧
    (List.Perm
        ((⟨[[⟨0, 0, 0, 5, 200⟩], []], [1, 0], 1, 2, 100⟩ : SConnCache).connHashList.getD
            (hashIdx 2 0 0 0) [] ++ [⟨0, 0, 0, 3, 0⟩])
        ((⟨0, 0, 0, 5, 200⟩ : SConnHash) ::
          (⟨[[⟨0, 0, 0, 3, 0⟩], []], [1, 0], 1, 2, 100⟩ : SConnCache).connHashList.getD
            (hashIdx 2 0 0 0) []) ∧
      ∀ e ∈ [(⟨0, 0, 0, 3, 0⟩ : SConnHash)],
        (⟨[[⟨0, 0, 0, 3, 0⟩], []], [1, 0], 1, 2, 100⟩ : SConnCache).keepTimer + e.time ≤ 200) := by
  have h := claim7_cleanup_exactly_once.1 ⟨[[⟨0, 0, 0, 3, 0⟩], []], [1, 0], 1, 2, 100⟩ 5 0 0 0 200
    ⟨[[⟨0, 0, 0, 5, 200⟩], []], [1, 0], 1, 2, 100⟩ [⟨0, 0, 0, 3, 0⟩]
    (by decide) (by decide) (by decide) (by decide)
  exact ⟨⟨by decide, by decide, by decide, by decide, by decide⟩, h.1, h.2 (by decide)⟩

lemma removeExpired_of_fresh_mem (kt t : Nat) (l : List SConnHash)
    (hs : l.Pairwise (fun a b => b.time ≤ a.time)) (e : SConnHash) (he : e ∈ l)
    (hf : t < kt + e.time) :
    rpcRemoveExpiredNodes kt t l = (l, []) := by
  cases l with
  | nil => rfl
  | cons f rest =>
    have hff : ¬ (kt + f.time ≤ t) := by
      rcases List.mem_cons.mp he with he | he
      · subst he; omega
      · have := (List.pairwise_cons.mp hs).1 e he
        omega
    simp [rpcRemoveExpiredNodes, hff]

/-- C10 fails as stated: with TTL 100, put payload 1 under a key at time 0,
then put payload 2 under the same key at time 100.  The second `put` does not
create a second coexisting entry — its in-line truncation evicts the now
expired first entry, so the bucket holds only the new entry. -/
theorem claim10_counterexample_expired_duplicate :
    (exec (rpcOpenConnCache 4 100) [(0, Op.put 1 0 0 0), (100, Op.put 2 0 0 0)]).map
      (fun s => s.connHashList.getD 0 []) = some [⟨0, 0, 0, 2, 100⟩] := by
  decide

/-- C10 (amended): `put` never checks for an existing entry with the same
key — when the bucket is sorted, an existing same-key entry is still fresh at
the insertion time, and the slab has a free slot, the `put` pushes a second,
coexisting entry at the head, evicts nothing, and leaves the old entry in
place; a subsequent `get` for that key (while both are fresh) returns the
most recently inserted (head-nearest) entry and leaves the older
duplicate(s) in the list. -/
theorem claim10_duplicate_coexists (s : SConnCache) (d ip port : Nat) (ct : Int)
    (t1 t2 : Nat) (s1 : SConnCache) (cleaned1 : List SConnHash) (eOld : SConnHash)
    (hmax : 0 < s.maxSessions) (hct : 0 ≤ ct) (hwf : WF s)
    (hsort : (s.connHashList.getD (hashIdx s.maxSessions ip port ct) []).Pairwise
      (fun a b => b.time ≤ a.time))
    (hmem : eOld ∈ s.connHashList.getD (hashIdx s.maxSessions ip port ct) [])
    (hkey : keyMatch ip port ct eOld)
    (hfresh1 : t1 < s.keepTimer + eOld.time)
    (hfresh2 : t2 < s.keepTimer + eOld.time)
    (hfreshNew : t2 < s.keepTimer + t1)
    (hput : rpcAddConnIntoCache s d ip port ct t1 = some (s1, cleaned1)) :
    s1.connHashList.getD (hashIdx s.maxSessions ip port ct) [] =
      (⟨ip, port, ct, d, t1⟩ : SConnHash) ::
        s.connHashList.getD (hashIdx s.maxSessions ip port ct) [] ∧
    cleaned1 = [] ∧
    (rpcGetConnFromCache s1 ip port ct t2).1 = some d ∧
    (rpcGetConnFromCache s1 ip port ct t2).2.1.connHashList.getD
        (hashIdx s.maxSessions ip port ct) [] =
      s.connHashList.getD (hashIdx s.maxSessions ip port ct) [] := by
  have hh : hashIdx s.maxSessions ip port ct < s.maxSessions := hashIdx_lt _ _ _ _ hmax hct
  have hhl : hashIdx s.maxSessions ip port ct < s.connHashList.length := by rw [hwf.1]; exact hh
  have hre1 : rpcRemoveExpiredNodes s.keepTimer t1
      (s.connHashList.getD (hashIdx s.maxSessions ip port ct) []) =
      (s.connHashList.getD (hashIdx s.maxSessions ip port ct) [], []) :=
    removeExpired_of_fresh_mem _ _ _ hsort eOld hmem hfresh1
  have hre2 : rpcRemoveExpiredNodes s.keepTimer t2
      (s.connHashList.getD (hashIdx s.maxSessions ip port ct) []) =
      (s.connHashList.getD (hashIdx s.maxSessions ip port ct) [], []) :=
    removeExpired_of_fresh_mem _ _ _ hsort eOld hmem hfresh2
  by_cases hd : d = 0
  · rw [put_none s d ip port ct t1 (Or.inl hd)] at hput
    exact absurd hput (by simp)
  by_cases hu : usedSlots s < s.maxSessions
  swap
  · rw [put_none s d ip port ct t1 (Or.inr hu)] at hput
    exact absurd hput (by simp)
  rw [put_eq s d ip port ct t1 hd hu, Option.some_inj] at hput
  injection hput with hs1 hcl
  subst hs1
  have hb1 : (s.connHashList.set (hashIdx s.maxSessions ip port ct)
        ((⟨ip, port, ct, d, t1⟩ : SConnHash) ::
          (rpcRemoveExpiredNodes s.keepTimer t1
            (s.connHashList.getD (hashIdx s.maxSessions ip port ct) [])).1)).getD
        (hashIdx s.maxSessions ip port ct) [] =
      (⟨ip, port, ct, d, t1⟩ : SConnHash) ::
        s.connHashList.getD (hashIdx s.maxSessions ip port ct) [] := by
    rw [getD_set_self _ _ _ _ hhl, hre1]
  have hnotexp : ¬ (s.keepTimer + (⟨ip, port, ct, d, t1⟩ : SConnHash).time ≤ t2) := by
    simp only
    omega
  have hwalk0 : rpcGetWalk s.keepTimer t2 ip port ct
      ((⟨ip, port, ct, d, t1⟩ : SConnHash) ::
        s.connHashList.getD (hashIdx s.maxSessions ip port ct) []) =
      ((rpcRemoveExpiredNodes s.keepTimer t2
          (s.connHashList.getD (hashIdx s.maxSessions ip port ct) [])).1,
        (rpcRemoveExpiredNodes s.keepTimer t2
          (s.connHashList.getD (hashIdx s.maxSessions ip port ct) [])).2,
        some ⟨ip, port, ct, d, t1⟩) := by
    simp [rpcGetWalk, hnotexp]
  have hwalk : rpcGetWalk s.keepTimer t2 ip port ct
      ((⟨ip, port, ct, d, t1⟩ : SConnHash) ::
        s.connHashList.getD (hashIdx s.maxSessions ip port ct) []) =
      (s.connHashList.getD (hashIdx s.maxSessions ip port ct) [], [],
        some ⟨ip, port, ct, d, t1⟩) := by
    rw [hwalk0, hre2]
  refine ⟨hb1, by rw [← hcl, hre1], ?_, ?_⟩
  · rw [get_eq]
    dsimp only
    rw [hb1, hwalk]
    rfl
  · rw [get_eq]
    dsimp only
    rw [hb1, hwalk]
    dsimp only
    rw [getD_set_self _ _ _ _ (by simpa using hhl)]

/-- Witness for C10 (amended): bucket 0 holds payload 1 inserted at 0
(TTL 100); putting payload 2 under the same key at time 50 leaves both
entries in the bucket, and the get at time 60 returns payload 2 while
payload 1 stays cached. -/
theorem claim10_duplicate_coexists_witness :
    (0 < 2 ∧ (0 : Int) ≤ 0 ∧ WF ⟨[[⟨0, 0, 0, 1, 0⟩], []], [1, 0], 1, 2, 100⟩ ∧
      (⟨0, 0, 0, 1, 0⟩ : SConnHash) ∈
        (⟨[[⟨0, 0, 0, 1, 0⟩], []], [1, 0], 1, 2, 100⟩ : SConnCache).connHashList.getD
          (hashIdx 2 0 0 0) [] ∧
      keyMatch 0 0 0 ⟨0, 0, 0, 1, 0⟩ ∧ 50 < 100 + 0 ∧ 60 < 100 + 0 ∧ 60 < 100 + 50 ∧
      rpcAddConnIntoCache ⟨[[⟨0, 0, 0, 1, 0⟩], []], [1, 0], 1, 2, 100⟩ 2 0 0 0 50 =
        some (⟨[[⟨0, 0, 0, 2, 50⟩, ⟨0, 0, 0, 1, 0⟩], []], [2, 0], 2, 2, 100⟩, [])) ∧
    ((⟨[[⟨0, 0, 0, 2, 50⟩, ⟨0, 0, 0, 1, 0⟩], []], [2, 0], 2, 2, 100⟩ :
        SConnCache).connHashList.getD (hashIdx 2 0 0 0) [] =
      (⟨0, 0, 0, 2, 50⟩ : SConnHash) ::
        (⟨[[⟨0, 0, 0, 1, 0⟩], []], [1, 0], 1, 2, 100⟩ : SConnCache).connHashList.getD
          (hashIdx 2 0 0 0) [] ∧
      ([] : List SConnHash) = [] ∧
      (rpcGetConnFromCache ⟨[[⟨0, 0, 0, 2, 50⟩, ⟨0, 0, 0, 1, 0⟩], []], [2, 0], 2, 2, 100⟩
        0 0 0 60).1 = some 2 ∧
      (rpcGetConnFromCache ⟨[[⟨0, 0, 0, 2, 50⟩, ⟨0, 0, 0, 1, 0⟩], []], [2, 0], 2, 2, 100⟩
          0 0 0 60).2.1.connHashList.getD (hashIdx 2 0 0 0) [] =
        (⟨[[⟨0, 0, 0, 1, 0⟩], []], [1, 0], 1, 2, 100⟩ : SConnCache).connHashList.getD
          (hashIdx 2 0 0 0) []) :=
  ⟨⟨by decide, by decide, by decide, by decide, by decide, by decide, by decide, by decide,
      by decide⟩,
    claim10_duplicate_coexists ⟨[[⟨0, 0, 0, 1, 0⟩], []], [1, 0], 1, 2, 100⟩ 2 0 0 0 50 60
      ⟨[[⟨0, 0, 0, 2, 50⟩, ⟨0, 0, 0, 1, 0⟩], []], [2, 0], 2, 2, 100⟩ [] ⟨0, 0, 0, 1, 0⟩
      (by decide) (by decide) (by decide) (by decide) (by decide) (by decide) (by decide)
      (by decide) (by decide) (by decide)⟩

end RpcCache

namespace MgmtBalance

lemma rne_ge_floor (x : Rat) : ⌊x⌋ ≤ rne x := by
  unfold rne
  split_ifs <;> omega

lemma rne_le_floor_add_one (x : Rat) : rne x ≤ ⌊x⌋ + 1 := by
  unfold rne
  split_ifs <;> omega

lemma rne_intCast (n : Int) : rne (n : Rat) = n := by
  unfold rne
  rw [Int.floor_intCast]
  norm_num

lemma rne_mono {x y : Rat} (h : x ≤ y) : rne x ≤ rne y := by
  have hf : ⌊x⌋ ≤ ⌊y⌋ := Int.floor_le_floor h
  rcases lt_or_eq_of_le hf with hlt | heq
  · calc rne x ≤ ⌊x⌋ + 1 := rne_le_floor_add_one x
      _ ≤ ⌊y⌋ := by omega
      _ ≤ rne y := rne_ge_floor y
  · unfold rne
    rw [← heq]
    split_ifs
    all_goals first
      | omega
      | (exfalso; push_cast at *; linarith)

lemma two_zpow_log_le (q : Rat) (hq : 0 < q) : (2 : Rat) ^ Int.log 2 q ≤ q := by
  have h := Int.zpow_log_le_self (b := 2) (R := Rat) (by norm_num) hq
  norm_num at h
  exact h

lemma lt_two_zpow_log (q : Rat) : q < (2 : Rat) ^ (Int.log 2 q + 1) := by
  have h := Int.lt_zpow_succ_log_self (b := 2) (R := Rat) (by norm_num) q
  norm_num at h
  exact h

lemma scaled_lb (q : Rat) (hq : 0 < q) :
    (2 : Rat) ^ (23 : Int) ≤ q / 2 ^ (Int.log 2 q - 23) := by
  have hpow : (0 : Rat) < 2 ^ (Int.log 2 q - 23) := zpow_pos (by norm_num) _
  rw [le_div_iff hpow]
  calc (2 : Rat) ^ (23 : Int) * 2 ^ (Int.log 2 q - 23) = 2 ^ Int.log 2 q := by
        rw [← zpow_add₀ (by norm_num : (2 : Rat) ≠ 0)]
        congr 1
        omega
    _ ≤ q := two_zpow_log_le q hq

lemma scaled_ub (q : Rat) (hq : 0 < q) :
    q / 2 ^ (Int.log 2 q - 23) < (2 : Rat) ^ (24 : Int) := by
  have hpow : (0 : Rat) < 2 ^ (Int.log 2 q - 23) := zpow_pos (by norm_num) _
  rw [div_lt_iff hpow]
  calc q < 2 ^ (Int.log 2 q + 1) := lt_two_zpow_log q
    _ = (2 : Rat) ^ (24 : Int) * 2 ^ (Int.log 2 q - 23) := by
        rw [← zpow_add₀ (by norm_num : (2 : Rat) ≠ 0)]
        congr 1
        omega

lemma rne_scaled_lb (q : Rat) (hq : 0 < q) :
    (2 ^ 23 : Int) ≤ rne (q / 2 ^ (Int.log 2 q - 23)) := by
  have hfl : (2 ^ 23 : Int) ≤ ⌊q / 2 ^ (Int.log 2 q - 23)⌋ := by
    apply Int.le_floor.mpr
    calc ((2 ^ 23 : Int) : Rat) = (2 : Rat) ^ (23 : Int) := by norm_num
      _ ≤ _ := scaled_lb q hq
  exact le_trans hfl (rne_ge_floor _)

lemma rne_scaled_ub (q : Rat) (hq : 0 < q) :
    rne (q / 2 ^ (Int.log 2 q - 23)) ≤ 2 ^ 24 := by
  have hfl : ⌊q / 2 ^ (Int.log 2 q - 23)⌋ < 2 ^ 24 := by
    apply Int.floor_lt.mpr
    calc q / 2 ^ (Int.log 2 q - 23) < (2 : Rat) ^ (24 : Int) := scaled_ub q hq
      _ = ((2 ^ 24 : Int) : Rat) := by norm_num
  have := rne_le_floor_add_one (q / 2 ^ (Int.log 2 q - 23))
  omega

lemma roundFloatPos_lb (q : Rat) (hq : 0 < q) :
    (2 : Rat) ^ Int.log 2 q ≤ roundFloatPos q := by
  unfold roundFloatPos
  have hpow : (0 : Rat) < 2 ^ (Int.log 2 q - 23) := zpow_pos (by norm_num) _
  calc (2 : Rat) ^ Int.log 2 q = (2 : Rat) ^ (23 : Int) * 2 ^ (Int.log 2 q - 23) := by
        rw [← zpow_add₀ (by norm_num : (2 : Rat) ≠ 0)]
        congr 1
        omega
    _ ≤ ((rne (q / 2 ^ (Int.log 2 q - 23)) : Int) : Rat) * 2 ^ (Int.log 2 q - 23) := by
        apply mul_le_mul_of_nonneg_right _ (le_of_lt hpow)
        calc (2 : Rat) ^ (23 : Int) = ((2 ^ 23 : Int) : Rat) := by norm_num
          _ ≤ _ := by exact_mod_cast rne_scaled_lb q hq

lemma roundFloatPos_ub (q : Rat) (hq : 0 < q) :
    roundFloatPos q ≤ (2 : Rat) ^ (Int.log 2 q + 1) := by
  unfold roundFloatPos
  have hpow : (0 : Rat) < 2 ^ (Int.log 2 q - 23) := zpow_pos (by norm_num) _
  calc ((rne (q / 2 ^ (Int.log 2 q - 23)) : Int) : Rat) * 2 ^ (Int.log 2 q - 23)
      ≤ ((2 ^ 24 : Int) : Rat) * 2 ^ (Int.log 2 q - 23) := by
        apply mul_le_mul_of_nonneg_right _ (le_of_lt hpow)
        exact_mod_cast rne_scaled_ub q hq
    _ = (2 : Rat) ^ (Int.log 2 q + 1) := by
        rw [show ((2 ^ 24 : Int) : Rat) = (2 : Rat) ^ (24 : Int) from by norm_num,
          ← zpow_add₀ (by norm_num : (2 : Rat) ≠ 0)]
        congr 1
        omega

lemma roundFloatPos_pos (q : Rat) (hq : 0 < q) : 0 < roundFloatPos q :=
  lt_of_lt_of_le (zpow_pos (by norm_num) _) (roundFloatPos_lb q hq)

lemma roundFloatPos_mono {a b : Rat} (ha : 0 < a) (hab : a ≤ b) :
    roundFloatPos a ≤ roundFloatPos b := by
  have hb : 0 < b := lt_of_lt_of_le ha hab
  have hlog : Int.log 2 a ≤ Int.log 2 b := Int.log_mono_right ha hab
  rcases lt_or_eq_of_le hlog with hlt | heq
  · calc roundFloatPos a ≤ (2 : Rat) ^ (Int.log 2 a + 1) := roundFloatPos_ub a ha
      _ ≤ (2 : Rat) ^ Int.log 2 b := zpow_le_zpow_right₀ (by norm_num) (by omega)
      _ ≤ roundFloatPos b := roundFloatPos_lb b hb
  · unfold roundFloatPos
    rw [← heq]
    have hpow : (0 : Rat) < 2 ^ (Int.log 2 a - 23) := zpow_pos (by norm_num) _
    have hsc : a / 2 ^ (Int.log 2 a - 23) ≤ b / 2 ^ (Int.log 2 a - 23) :=
      (div_le_div_iff_of_pos_right hpow).mpr hab
    apply mul_le_mul_of_nonneg_right _ (le_of_lt hpow)
    exact_mod_cast rne_mono hsc

lemma roundFloat_zero : roundFloat 0 = 0 := by
  unfold roundFloat
  simp

lemma roundFloat_nonpos {q : Rat} (hq : q ≤ 0) : roundFloat q ≤ 0 := by
  unfold roundFloat
  rcases eq_or_lt_of_le hq with h | h
  · simp [h.symm]
  · rw [if_neg (ne_of_lt h), if_pos h]
    have := roundFloatPos_pos (-q) (by linarith)
    linarith

lemma roundFloat_pos {q : Rat} (hq : 0 < q) : 0 < roundFloat q := by
  unfold roundFloat
  rw [if_neg (ne_of_gt hq), if_neg (not_lt.mpr (le_of_lt hq))]
  exact roundFloatPos_pos q hq

lemma roundFloat_mono {a b : Rat} (h : a ≤ b) : roundFloat a ≤ roundFloat b := by
  rcases lt_trichotomy a 0 with ha | ha | ha
  · rcases lt_trichotomy b 0 with hb | hb | hb
    · unfold roundFloat
      rw [if_neg (ne_of_lt ha), if_pos ha, if_neg (ne_of_lt hb), if_pos hb]
      have : roundFloatPos (-b) ≤ roundFloatPos (-a) :=
        roundFloatPos_mono (by linarith) (by linarith)
      linarith
    · rw [hb, roundFloat_zero]
      exact roundFloat_nonpos (le_of_lt ha)
    · exact le_trans (roundFloat_nonpos (le_of_lt ha)) (le_of_lt (roundFloat_pos hb))
  · subst ha
    rw [roundFloat_zero]
    rcases eq_or_lt_of_le h with hb | hb
    · rw [← hb, roundFloat_zero]
    · exact le_of_lt (roundFloat_pos hb)
  · have hb : 0 < b := lt_of_lt_of_le ha h
    unfold roundFloat
    rw [if_neg (ne_of_gt ha), if_neg (not_lt.mpr (le_of_lt ha)),
      if_neg (ne_of_gt hb), if_neg (not_lt.mpr (le_of_lt hb))]
    exact roundFloatPos_mono ha h

lemma log2_eq (q : Rat) (e : Int) (hq : 0 < q)
    (h1 : (2 : Rat) ^ e ≤ q) (h2 : q < (2 : Rat) ^ (e + 1)) :
    Int.log 2 q = e := by
  have ha : e ≤ Int.log 2 q := by
    apply (Int.zpow_le_iff_le_log (b := 2) (by norm_num) hq).mp
    exact_mod_cast h1
  have hb : Int.log 2 q < e + 1 := by
    apply (Int.lt_zpow_iff_log_lt (b := 2) (by norm_num) hq).mp
    exact_mod_cast h2
  omega

lemma roundFloat_eval (q : Rat) (e m : Int) (hq : 0 < q)
    (h1 : (2 : Rat) ^ e ≤ q) (h2 : q < (2 : Rat) ^ (e + 1))
    (hm : rne (q / 2 ^ (e - 23)) = m) :
    roundFloat q = (m : Rat) * 2 ^ (e - 23) := by
  unfold roundFloat roundFloatPos
  rw [if_neg (ne_of_gt hq), if_neg (not_lt.mpr (le_of_lt hq)), log2_eq q e hq h1 h2, hm]

lemma rne_num (x : Rat) (n : Int) (h : x = (n : Rat)) : rne x = n := by
  rw [h, rne_intCast]

lemma roundFloat_one : roundFloat 1 = 1 := by
  have h := roundFloat_eval 1 0 (2 ^ 23) (by norm_num) (by norm_num) (by norm_num)
    (rne_num _ _ (by norm_num))
  norm_num at h
  exact h

lemma roundFloat_le_one {q : Rat} (h : q ≤ 1) : roundFloat q ≤ 1 := by
  rcases le_or_lt q 0 with h0 | h0
  · linarith [roundFloat_nonpos h0]
  · calc roundFloat q ≤ roundFloat 1 := roundFloat_mono h
      _ = 1 := roundFloat_one

lemma one_le_roundFloat {q : Rat} (h : 1 ≤ q) : 1 ≤ roundFloat q := by
  calc (1 : Rat) = roundFloat 1 := roundFloat_one.symm
    _ ≤ roundFloat q := roundFloat_mono h

lemma dnodeUsage_le_one (d : SDnodeObj)
    (hq : 0 < d.numOfTotalVnodes ∧ d.openVnodes < d.numOfTotalVnodes) :
    dnodeUsage d ≤ 1 := by
  have htot : (1 : Rat) ≤ (d.numOfTotalVnodes : Rat) := by exact_mod_cast hq.1
  have hrt : (1 : Rat) ≤ roundFloat (d.numOfTotalVnodes : Rat) := one_le_roundFloat htot
  have hrtpos : (0 : Rat) < roundFloat (d.numOfTotalVnodes : Rat) := by linarith
  unfold dnodeUsage
  apply roundFloat_le_one
  rcases le_or_lt (d.openVnodes : Rat) 0 with ho | ho
  · have hno : roundFloat (d.openVnodes : Rat) ≤ 0 := roundFloat_nonpos ho
    have : roundFloat (d.openVnodes : Rat) / roundFloat (d.numOfTotalVnodes : Rat) ≤ 0 :=
      (div_le_iff hrtpos).mpr (by simpa using hno)
    linarith
  · have hle : (d.openVnodes : Rat) ≤ (d.numOfTotalVnodes : Rat) := by
      have := le_of_lt hq.2
      exact_mod_cast this
    rw [div_le_one hrtpos]
    exact roundFloat_mono hle

lemma balanceScan_spec : ∀ (ds : List SDnodeObj) (sel : Option SDnodeObj) (u : Rat),
    (sel = none → u = 1) →
    (∀ d ∈ ds, dnodeQualifies d → (balanceScan ds sel u).2 ≤ dnodeUsage d) ∧
    (balanceScan ds sel u).2 ≤ u ∧
    ((balanceScan ds sel u).1 = sel ∧ (balanceScan ds sel u).2 = u ∨
      ∃ x ∈ ds, (balanceScan ds sel u).1 = some x ∧ dnodeQualifies x ∧
        (balanceScan ds sel u).2 = dnodeUsage x) ∧
    ((balanceScan ds sel u).1 = none → sel = none ∧ ∀ d ∈ ds, ¬ dnodeQualifies d) := by
  intro ds
  induction ds with
  | nil =>
    intro sel u hu
    exact ⟨by simp, le_refl u, Or.inl ⟨rfl, rfl⟩, fun hnone => ⟨hnone, by simp⟩⟩
  | cons d rest ih =>
    intro sel u hu
    by_cases hq : 0 < d.numOfTotalVnodes ∧ d.openVnodes < d.numOfTotalVnodes
    · by_cases hle : dnodeUsage d ≤ u
      · have hstep : balanceScan (d :: rest) sel u =
            balanceScan rest (some d) (dnodeUsage d) := by
          simp [balanceScan, hq, hle]
        obtain ⟨ih1, ih2, ih3, ih4⟩ := ih (some d) (dnodeUsage d) (by simp)
        rw [hstep]
        refine ⟨?_, le_trans ih2 hle, ?_, ?_⟩
        · intro x hx hqx
          rcases List.mem_cons.mp hx with hx | hx
          · rw [hx]
            exact ih2
          · exact ih1 x hx hqx
        · rcases ih3 with ⟨h1, h2⟩ | ⟨x, hx, h1, h2, h3⟩
          · exact Or.inr ⟨d, by simp, h1, hq, h2⟩
          · exact Or.inr ⟨x, by simp [hx], h1, h2, h3⟩
        · intro hnone
          obtain ⟨hc, -⟩ := ih4 hnone
          exact absurd hc (by simp)
      · have hstep : balanceScan (d :: rest) sel u = balanceScan rest sel u := by
          simp [balanceScan, hq, hle]
        cases hsel : sel with
        | none =>
          exfalso
          exact hle (by rw [hu hsel]; exact dnodeUsage_le_one d hq)
        | some x =>
          rw [hsel] at hstep
          obtain ⟨ih1, ih2, ih3, ih4⟩ := ih (some x) u (by simp)
          rw [hstep]
          refine ⟨?_, ih2, ?_, ?_⟩
          · intro y hy hqy
            rcases List.mem_cons.mp hy with hy | hy
            · rw [hy]
              exact le_trans ih2 (le_of_lt (not_le.mp hle))
            · exact ih1 y hy hqy
          · rcases ih3 with h | ⟨y, hy, h1, h2, h3⟩
            · exact Or.inl h
            · exact Or.inr ⟨y, by simp [hy], h1, h2, h3⟩
          · intro hnone
            obtain ⟨h1, -⟩ := ih4 hnone
            exact absurd h1 (by simp)
    · have hstep : balanceScan (d :: rest) sel u = balanceScan rest sel u := by
        simp [balanceScan, hq]
      obtain ⟨ih1, ih2, ih3, ih4⟩ := ih sel u hu
      rw [hstep]
      refine ⟨?_, ih2, ?_, ?_⟩
      · intro y hy hqy
        rcases List.mem_cons.mp hy with hy | hy
        · rw [hy] at hqy
          exact absurd hqy hq
        · exact ih1 y hy hqy
      · rcases ih3 with h | ⟨y, hy, h1, h2, h3⟩
        · exact Or.inl h
        · exact Or.inr ⟨y, by simp [hy], h1, h2, h3⟩
      · intro hnone
        obtain ⟨h1, h2⟩ := ih4 hnone
        refine ⟨h1, ?_⟩
        intro y hy
        rcases List.mem_cons.mp hy with hy | hy
        · rw [hy]
          exact hq
        · exact h2 y hy

/-- C9 (amended): `balanceAllocVnodes` is a linear scan for minimum
*single-precision float* utilization.  It considers exactly the dnodes with
`numOfTotalVnodes > 0` and `openVnodes < numOfTotalVnodes`; when at least one
qualifies, it returns `TSDB_CODE_SUCCESS` and writes the id and both
addresses of a qualifying dnode whose binary32 ratio
`(float)openVnodes / numOfTotalVnodes` (`dnodeUsage`) is minimal among the
qualifying dnodes' binary32 ratios into the vgroup's first slot — ties go to
the last scanned, so the *exact rational* ratio of the selected dnode need
not be minimal (`claim9_counterexample_float_rounding`); when none qualifies
it returns `TSDB_CODE_NO_ENOUGH_DNODES` and leaves the vgroup unchanged. -/
theorem claim9_alloc_vnodes_min_usage (dnodes : List SDnodeObj) (vg : SVgObj)
    (res : Nat) (vg' : SVgObj)
    (h : balanceAllocVnodes dnodes vg = (res, vg')) :
    ((∀ d ∈ dnodes, ¬ dnodeQualifies d) → res = TSDB_CODE_NO_ENOUGH_DNODES ∧ vg' = vg) ∧
    ((∃ d ∈ dnodes, dnodeQualifies d) → res = TSDB_CODE_SUCCESS ∧
      ∃ sel ∈ dnodes, dnodeQualifies sel ∧
        (∀ d ∈ dnodes, dnodeQualifies d → dnodeUsage sel ≤ dnodeUsage d) ∧
        vg' = { vg with vnodeGid0 := ⟨sel.dnodeId, sel.privateIp, sel.publicIp⟩ }) := by
  obtain ⟨h1, h2, h3, h4⟩ := balanceScan_spec dnodes none 1 (fun _ => rfl)
  cases hscan : (balanceScan dnodes none 1).1 with
  | none =>
    have hpair : balanceScan dnodes none 1 =
        ((balanceScan dnodes none 1).1, (balanceScan dnodes none 1).2) := rfl
    rw [hscan] at hpair
    unfold balanceAllocVnodes at h
    rw [hpair] at h
    have h' : (TSDB_CODE_NO_ENOUGH_DNODES, vg) = (res, vg') := h
    injection h' with hr hv
    obtain ⟨-, hnoq⟩ := h4 hscan
    constructor
    · intro _
      exact ⟨hr.symm, hv.symm⟩
    · intro ⟨d, hd, hqd⟩
      exact absurd hqd (hnoq d hd)
  | some sel =>
    have hpair : balanceScan dnodes none 1 =
        ((balanceScan dnodes none 1).1, (balanceScan dnodes none 1).2) := rfl
    rw [hscan] at hpair
    unfold balanceAllocVnodes at h
    rw [hpair] at h
    have h' : (TSDB_CODE_SUCCESS,
        { vg with vnodeGid0 := ⟨sel.dnodeId, sel.privateIp, sel.publicIp⟩ }) = (res, vg') := h
    injection h' with hr hv
    have hsel : ∃ x ∈ dnodes, dnodeQualifies x ∧
        (balanceScan dnodes none 1).2 = dnodeUsage x ∧ x = sel := by
      rcases h3 with ⟨hc, -⟩ | ⟨x, hx, hc1, hc2, hc3⟩
      · rw [hscan] at hc
        exact absurd hc (by simp)
      · rw [hscan] at hc1
        refine ⟨x, hx, hc2, hc3, ?_⟩
        injection hc1 with he
        exact he.symm
    obtain ⟨x, hx, hqx, hux, hxsel⟩ := hsel
    subst hxsel
    constructor
    · intro hnoq
      exact absurd hqx (hnoq x hx)
    · intro _
      refine ⟨hr.symm, x, hx, hqx, ?_, hv.symm⟩
      intro d hd hqd
      rw [← hux]
      exact h1 d hd hqd

lemma rf_eval_two : roundFloat 2 = 2 := by
  have h := roundFloat_eval 2 1 (2 ^ 23) (by norm_num) (by norm_num) (by norm_num)
    (rne_num _ _ (by norm_num))
  norm_num at h
  exact h

lemma rf_eval_three : roundFloat 3 = 3 := by
  have h := roundFloat_eval 3 1 12582912 (by norm_num) (by norm_num) (by norm_num)
    (rne_num _ _ (by norm_num))
  norm_num at h
  exact h

lemma rf_eval_four : roundFloat 4 = 4 := by
  have h := roundFloat_eval 4 2 (2 ^ 23) (by norm_num) (by norm_num) (by norm_num)
    (rne_num _ _ (by norm_num))
  norm_num at h
  exact h

lemma rf_eval_half : roundFloat ((1 : Rat)/2) = 1/2 := by
  have h := roundFloat_eval ((1 : Rat)/2) (-1) (2 ^ 23) (by norm_num) (by norm_num) (by norm_num)
    (rne_num _ _ (by norm_num))
  norm_num at h
  exact h

lemma rf_eval_quarter : roundFloat ((1 : Rat)/4) = 1/4 := by
  have h := roundFloat_eval ((1 : Rat)/4) (-2) (2 ^ 23) (by norm_num) (by norm_num) (by norm_num)
    (rne_num _ _ (by norm_num))
  norm_num at h
  exact h

lemma rf_eval_big : roundFloat 11184811 = 11184811 := by
  have h := roundFloat_eval 11184811 23 11184811 (by norm_num) (by norm_num) (by norm_num)
    (rne_num _ _ (by norm_num))
  norm_num at h
  exact h

lemma rf_eval_pow25 : roundFloat 33554432 = 33554432 := by
  have h := roundFloat_eval 33554432 25 (2 ^ 23) (by norm_num) (by norm_num) (by norm_num)
    (rne_num _ _ (by norm_num))
  norm_num at h
  exact h

/-- `1/3` is not a binary32 value: it rounds up to `11184811 / 2^25`. -/
lemma rf_eval_third : roundFloat ((1 : Rat)/3) = 11184811/33554432 := by
  have hfl : ⌊(33554432 : Rat)/3⌋ = 11184810 :=
    Int.floor_eq_iff.mpr ⟨by norm_num, by norm_num⟩
  have hrne : rne ((1 : Rat)/3 / 2 ^ ((-2 : Int) - 23)) = 11184811 := by
    have harg : (1 : Rat)/3 / 2 ^ ((-2 : Int) - 23) = (33554432 : Rat)/3 := by norm_num
    rw [harg]
    unfold rne
    rw [hfl]
    norm_num
  have h := roundFloat_eval ((1 : Rat)/3) (-2) 11184811 (by norm_num) (by norm_num) (by norm_num)
    hrne
  norm_num at h
  exact h

lemma rf_eval_ratio : roundFloat ((11184811 : Rat)/33554432) = 11184811/33554432 := by
  have h := roundFloat_eval ((11184811 : Rat)/33554432) (-2) 11184811 (by norm_num) (by norm_num) (by norm_num)
    (rne_num _ _ (by norm_num))
  norm_num at h
  exact h

lemma usage_w1 : dnodeUsage ⟨1, 11, 12, 1, 2⟩ = 1/2 := by
  have h1 : (((⟨1, 11, 12, 1, 2⟩ : SDnodeObj).openVnodes : Rat)) = 1 := by norm_num
  have h2 : (((⟨1, 11, 12, 1, 2⟩ : SDnodeObj).numOfTotalVnodes : Rat)) = 2 := by norm_num
  unfold dnodeUsage
  rw [h1, h2, roundFloat_one, rf_eval_two, rf_eval_half]

lemma usage_w2 : dnodeUsage ⟨2, 21, 22, 1, 4⟩ = 1/4 := by
  have h1 : (((⟨2, 21, 22, 1, 4⟩ : SDnodeObj).openVnodes : Rat)) = 1 := by norm_num
  have h2 : (((⟨2, 21, 22, 1, 4⟩ : SDnodeObj).numOfTotalVnodes : Rat)) = 4 := by norm_num
  unfold dnodeUsage
  rw [h1, h2, roundFloat_one, rf_eval_four, rf_eval_quarter]

lemma usage_c1 : dnodeUsage ⟨1, 11, 12, 1, 3⟩ = 11184811/33554432 := by
  have h1 : (((⟨1, 11, 12, 1, 3⟩ : SDnodeObj).openVnodes : Rat)) = 1 := by norm_num
  have h2 : (((⟨1, 11, 12, 1, 3⟩ : SDnodeObj).numOfTotalVnodes : Rat)) = 3 := by norm_num
  unfold dnodeUsage
  rw [h1, h2, roundFloat_one, rf_eval_three, rf_eval_third]

lemma usage_c2 : dnodeUsage ⟨2, 21, 22, 11184811, 33554432⟩ = 11184811/33554432 := by
  have h1 : (((⟨2, 21, 22, 11184811, 33554432⟩ : SDnodeObj).openVnodes : Rat)) = 11184811 := by
    norm_num
  have h2 : (((⟨2, 21, 22, 11184811, 33554432⟩ : SDnodeObj).numOfTotalVnodes : Rat)) =
      33554432 := by norm_num
  unfold dnodeUsage
  rw [h1, h2, rf_eval_big, rf_eval_pow25, rf_eval_ratio]

lemma balanceAllocVnodes_of_scan_some (ds : List SDnodeObj) (vg : SVgObj) (sel : SDnodeObj)
    (u : Rat) (h : balanceScan ds none 1 = (some sel, u)) :
    balanceAllocVnodes ds vg =
      (TSDB_CODE_SUCCESS,
        { vg with vnodeGid0 := ⟨sel.dnodeId, sel.privateIp, sel.publicIp⟩ }) := by
  unfold balanceAllocVnodes
  rw [h]

/-- C9 fails as stated: the dnodes `(openVnodes 1, total 3)` and
`(openVnodes 11184811, total 33554432)` — both in int32 range — have exact
utilization ratios `1/3 < 11184811/2^25`, but both round to the same
binary32 value `11184811/2^25`, so the `usage <= vnodeUsage` tie makes the
scan select the *second* dnode, whose exact ratio is not minimal among the
qualifying dnodes. -/
theorem claim9_counterexample_float_rounding :
    balanceAllocVnodes [⟨1, 11, 12, 1, 3⟩, ⟨2, 21, 22, 11184811, 33554432⟩] ⟨⟨0, 0, 0⟩⟩ =
      (TSDB_CODE_SUCCESS, ⟨⟨2, 21, 22⟩⟩) ∧
    dnodeQualifies ⟨1, 11, 12, 1, 3⟩ ∧
    dnodeUsageExact ⟨1, 11, 12, 1, 3⟩ <
      dnodeUsageExact ⟨2, 21, 22, 11184811, 33554432⟩ := by
  refine ⟨?_, by decide, ?_⟩
  · have hscan : balanceScan [⟨1, 11, 12, 1, 3⟩, ⟨2, 21, 22, 11184811, 33554432⟩] none 1 =
        (some ⟨2, 21, 22, 11184811, 33554432⟩, 11184811/33554432) := by
      norm_num [balanceScan, usage_c1, usage_c2]
    exact balanceAllocVnodes_of_scan_some _ _ _ _ hscan
  · unfold dnodeUsageExact
    norm_num

/-- Witness for C9 (amended): of two dnodes with binary32 utilizations `1/2`
and `1/4` (both exactly representable), the allocator returns success and
writes the id and addresses of the `1/4` dnode (minimal float usage) into
the vgroup's first slot. -/
theorem claim9_alloc_vnodes_min_usage_witness :
    (∃ d ∈ [(⟨1, 11, 12, 1, 2⟩ : SDnodeObj), ⟨2, 21, 22, 1, 4⟩], dnodeQualifies d) ∧
    (TSDB_CODE_SUCCESS = TSDB_CODE_SUCCESS ∧
      ∃ sel ∈ [(⟨1, 11, 12, 1, 2⟩ : SDnodeObj), ⟨2, 21, 22, 1, 4⟩], dnodeQualifies sel ∧
        (∀ d ∈ [(⟨1, 11, 12, 1, 2⟩ : SDnodeObj), ⟨2, 21, 22, 1, 4⟩],
          dnodeQualifies d → dnodeUsage sel ≤ dnodeUsage d) ∧
        (⟨⟨2, 21, 22⟩⟩ : SVgObj) =
          { (⟨⟨0, 0, 0⟩⟩ : SVgObj) with
            vnodeGid0 := ⟨sel.dnodeId, sel.privateIp, sel.publicIp⟩ }) :=
  ⟨by decide,
    (claim9_alloc_vnodes_min_usage [⟨1, 11, 12, 1, 2⟩, ⟨2, 21, 22, 1, 4⟩] ⟨⟨0, 0, 0⟩⟩
      TSDB_CODE_SUCCESS ⟨⟨2, 21, 22⟩⟩
      (by
        have hscan : balanceScan [(⟨1, 11, 12, 1, 2⟩ : SDnodeObj), ⟨2, 21, 22, 1, 4⟩] none 1 =
            (some ⟨2, 21, 22, 1, 4⟩, 1/4) := by
          norm_num [balanceScan, usage_w1, usage_w2]
        exact balanceAllocVnodes_of_scan_some _ _ _ _ hscan)).2 (by decide)⟩

end MgmtBalance
